import Mathlib

/-!
Verification of the Hindsight2 LLM orchestration core: the structured-output
parser (`BaseLLMProvider.parse_structured_output`), the TOON context encoder
(`encode_toon` / `decode_toon`), the Gemini/Claude provider calls
(`send_message`, `stream_response`, `send_with_json_output`) and the smart
pipeline (`SmartGeminiProvider.send_message` with its three steps and the
markdown renderer `_format_solution_markdown`).

Python strings are modelled as `List Char`; Python dict/list/str/int/bool/None
values as the `Json` type below (the float-free fragment: no claim in this
development depends on float values, and the repository's own data never
produces them on the paths verified here).  Fallible Python code is embedded
with `Option`/`Except`, where `Except.error`/`none` models a raised exception.
The network backends are abstracted as oracles (`GeminiBackend`,
`ClaudeBackend`, `ToonLib`): each theorem quantifies over the oracle, so the
theorems hold for every possible backend behaviour.
-/

/-- Model of a Python JSON-safe value (dict / list / str / int / bool / None).
Keys keep insertion order, as Python dicts do; a key never repeats in any
value produced by the repository's code, so a plain association list is a
faithful model. -/
inductive Json where
  | null : Json
  | bool (b : Bool) : Json
  | num (n : Int) : Json
  | str (s : List Char) : Json
  | arr (xs : List Json) : Json
  | obj (kvs : List (List Char × Json)) : Json
deriving Repr

namespace Json

mutual

def beq : Json → Json → Bool
  | .null, .null => true
  | .bool a, .bool b => a == b
  | .num a, .num b => a == b
  | .str a, .str b => a == b
  | .arr a, .arr b => beqList a b
  | .obj a, .obj b => beqFields a b
  | _, _ => false

def beqList : List Json → List Json → Bool
  | [], [] => true
  | x :: xs, y :: ys => beq x y && beqList xs ys
  | _, _ => false

def beqFields : List (List Char × Json) → List (List Char × Json) → Bool
  | [], [] => true
  | (k, v) :: xs, (l, w) :: ys => k == l && beq v w && beqFields xs ys
  | _, _ => false

end

mutual

theorem beq_iff_eq : ∀ a b : Json, beq a b = true ↔ a = b
  | .null, .null => by simp [beq]
  | .bool _, .bool _ => by simp [beq]
  | .num _, .num _ => by simp [beq]
  | .str _, .str _ => by simp [beq]
  | .arr x, .arr y => by simp [beq, beqList_iff_eq x y]
  | .obj x, .obj y => by simp [beq, beqFields_iff_eq x y]
  | .null, .bool _ | .null, .num _ | .null, .str _ | .null, .arr _ | .null, .obj _
  | .bool _, .null | .bool _, .num _ | .bool _, .str _ | .bool _, .arr _ | .bool _, .obj _
  | .num _, .null | .num _, .bool _ | .num _, .str _ | .num _, .arr _ | .num _, .obj _
  | .str _, .null | .str _, .bool _ | .str _, .num _ | .str _, .arr _ | .str _, .obj _
  | .arr _, .null | .arr _, .bool _ | .arr _, .num _ | .arr _, .str _ | .arr _, .obj _
  | .obj _, .null | .obj _, .bool _ | .obj _, .num _ | .obj _, .str _ | .obj _, .arr _ => by
      simp [beq]

theorem beqList_iff_eq : ∀ a b : List Json, beqList a b = true ↔ a = b
  | [], [] => by simp [beqList]
  | [], _ :: _ => by simp [beqList]
  | _ :: _, [] => by simp [beqList]
  | x :: xs, y :: ys => by
      simp [beqList, beq_iff_eq x y, beqList_iff_eq xs ys]

theorem beqFields_iff_eq :
    ∀ a b : List (List Char × Json), beqFields a b = true ↔ a = b
  | [], [] => by simp [beqFields]
  | [], _ :: _ => by simp [beqFields]
  | _ :: _, [] => by simp [beqFields]
  | (k, v) :: xs, (l, w) :: ys => by
      simp [beqFields, beq_iff_eq v w, beqFields_iff_eq xs ys, and_assoc]

end

instance : DecidableEq Json := fun a b =>
  decidable_of_iff (beq a b = true) (beq_iff_eq a b)

end Json

/-- JSON whitespace characters skipped by Python's `json` parser. -/
def isJsonWs (c : Char) : Bool :=
  c == ' ' || c == '\t' || c == '\n' || c == '\r'

/-- Skip leading JSON whitespace. -/
def skipWs (cs : List Char) : List Char := cs.dropWhile isJsonWs

/-- Every character is JSON whitespace. -/
def allWs (cs : List Char) : Bool := cs.all isJsonWs

/-- ASCII whitespace characters stripped by Python's `str.strip()`. -/
def pyIsSpace (c : Char) : Bool :=
  c == ' ' || c == '\t' || c == '\n' || c == '\r' || c == '\x0b' || c == '\x0c'

/-- Model of Python `str.strip()`: drop whitespace at both ends. -/
def pyStrip (cs : List Char) : List Char :=
  ((cs.dropWhile pyIsSpace).reverse.dropWhile pyIsSpace).reverse

/-- Index of the first occurrence of `needle` in `hay`, as Python `str.find`
computes it (with `none` standing for Python's `-1`). -/
def findSub (hay needle : List Char) : Option Nat :=
  match hay with
  | [] => if needle.isEmpty then some 0 else none
  | c :: t =>
    if needle.isPrefixOf (c :: t) then some 0 else (findSub t needle).map (· + 1)

/-- Lowercase hex digit, also used as the decimal digit printer for `k < 10`. -/
def hexDigitChar (k : Nat) : Char :=
  if k < 10 then Char.ofNat (48 + k) else Char.ofNat (87 + k)

/-- Value of one hex digit character. -/
def hexVal (c : Char) : Option Nat :=
  if '0' ≤ c ∧ c ≤ '9' then some (c.toNat - 48)
  else if 'a' ≤ c ∧ c ≤ 'f' then some (c.toNat - 87)
  else if 'A' ≤ c ∧ c ≤ 'F' then some (c.toNat - 55)
  else none

/-- A `\uXXXX` escape for a 16-bit code unit, lowercase hex as CPython emits. -/
def uEsc (n : Nat) : List Char :=
  ['\\', 'u', hexDigitChar (n / 4096 % 16), hexDigitChar (n / 256 % 16),
   hexDigitChar (n / 16 % 16), hexDigitChar (n % 16)]

/-- Escape one character the way `json.dumps` with its default `ensure_ascii`
does: the named short escapes, `\uXXXX` for other control and non-ASCII
characters, and a surrogate pair for characters above the basic plane. -/
def escChar (c : Char) : List Char :=
  if c = '"' then ['\\', '"']
  else if c = '\\' then ['\\', '\\']
  else if c = '\n' then ['\\', 'n']
  else if c = '\r' then ['\\', 'r']
  else if c = '\t' then ['\\', 't']
  else if c.toNat = 8 then ['\\', 'b']
  else if c.toNat = 12 then ['\\', 'f']
  else if c.toNat < 0x20 then uEsc c.toNat
  else if c.toNat < 0x7F then [c]
  else if c.toNat < 0x10000 then uEsc c.toNat
  else uEsc (0xD800 + (c.toNat - 0x10000) / 0x400) ++
       uEsc (0xDC00 + (c.toNat - 0x10000) % 0x400)

/-- Escape a whole string. -/
def escStr (s : List Char) : List Char := (s.map escChar).flatten

/-- A JSON string literal: quote, escaped body, quote. -/
def dumpStr (s : List Char) : List Char := '"' :: (escStr s ++ ['"'])

/-- Decimal digits of a natural number, most significant first. -/
def natChars (n : Nat) : List Char :=
  if n < 10 then [hexDigitChar n]
  else natChars (n / 10) ++ [hexDigitChar (n % 10)]
decreasing_by omega

/-- Decimal representation of an integer, as Python `repr(int)` prints it. -/
def intChars (n : Int) : List Char :=
  if n < 0 then '-' :: natChars n.natAbs else natChars n.natAbs

/-- Value of a decimal digit character. -/
def digitVal (c : Char) : Nat := c.toNat - 48

/-- Read a digit string as a natural number. -/
def digitsToNat (ds : List Char) : Nat := ds.foldl (fun a c => 10 * a + digitVal c) 0

/-- After a number, JSON requires a non-number character (or the end); a
following `.`/`e`/`E` would make the token a float, which lies outside the
float-free fragment this model covers. -/
def numDelim (cs : List Char) : Bool :=
  match cs with
  | [] => true
  | c :: _ => !(c.isDigit || c == '.' || c == 'e' || c == 'E')

/-- Parse an unsigned run of digits (no leading zeros) followed by a number
delimiter. -/
def parseNumDigits (t : List Char) : Option (Nat × List Char) :=
  let digs := t.takeWhile Char.isDigit
  let rest := t.drop digs.length
  if digs.isEmpty then none
  else if 1 < digs.length ∧ digs.head? = some '0' then none
  else if numDelim rest then some (digitsToNat digs, rest) else none

/-- Parse a JSON integer token (optional minus sign, digits, no leading
zeros). -/
def parseNum (cs : List Char) : Option (Json × List Char) :=
  if cs.head? = some '-' then
    match parseNumDigits cs.tail with
    | some p => some (.num (-(p.1 : Int)), p.2)
    | none => none
  else
    match parseNumDigits cs with
    | some p => some (.num ((p.1 : Int)), p.2)
    | none => none

/-- One step of JSON string-body decoding.  The `Bool` selects body mode
(`false`, plain characters) and escape mode (`true`, the characters after a
backslash); the `Nat` is fuel, decreased by one at every decoded character,
so that the recursion is structural and concrete inputs evaluate inside the
kernel.  Since every decoded character consumes at least one input
character, fuel `length + 1` never runs out.  Surrogate pairs in `\u`
escapes are recombined as CPython's decoder does; a lone surrogate escape
(which Python would keep in the string, but which is not a Unicode scalar
value and hence not a `Char`) is rejected by the model — such escapes are
unreachable from the output of `escStr` on scalar strings, and no claim
depends on them. -/
def parseStrAux : Nat → Bool → List Char → Option (List Char × List Char)
  | 0, _, _ => none
  | _ + 1, false, [] => none
  | fuel + 1, false, c :: rest =>
    if c = '"' then some ([], rest)
    else if c = '\\' then parseStrAux fuel true rest
    else if c.toNat < 0x20 then none
    else (parseStrAux fuel false rest).map (fun p => (c :: p.1, p.2))
  | _ + 1, true, [] => none
  | fuel + 1, true, e :: rest =>
    if e = 'u' then
      match rest with
      | a :: b :: c :: d :: r =>
        match hexVal a, hexVal b, hexVal c, hexVal d with
        | some ha, some hb, some hc, some hd =>
          let n := 4096 * ha + 256 * hb + 16 * hc + hd
          if 0xD800 ≤ n ∧ n < 0xDC00 then
            match r with
            | x :: y :: a2 :: b2 :: c2 :: d2 :: r2 =>
              if x = '\\' ∧ y = 'u' then
                match hexVal a2, hexVal b2, hexVal c2, hexVal d2 with
                | some ha2, some hb2, some hc2, some hd2 =>
                  let m := 4096 * ha2 + 256 * hb2 + 16 * hc2 + hd2
                  if 0xDC00 ≤ m ∧ m < 0xE000 then
                    (parseStrAux fuel false r2).map (fun p =>
                      (Char.ofNat (0x10000 + 0x400 * (n - 0xD800) + (m - 0xDC00)) :: p.1, p.2))
                  else none
                | _, _, _, _ => none
              else none
            | _ => none
          else if 0xDC00 ≤ n ∧ n < 0xE000 then none
          else (parseStrAux fuel false r).map (fun p => (Char.ofNat n :: p.1, p.2))
        | _, _, _, _ => none
      | _ => none
    else if e = '"' then (parseStrAux fuel false rest).map (fun p => ('"' :: p.1, p.2))
    else if e = '\\' then (parseStrAux fuel false rest).map (fun p => ('\\' :: p.1, p.2))
    else if e = '/' then (parseStrAux fuel false rest).map (fun p => ('/' :: p.1, p.2))
    else if e = 'b' then (parseStrAux fuel false rest).map (fun p => (Char.ofNat 8 :: p.1, p.2))
    else if e = 'f' then (parseStrAux fuel false rest).map (fun p => (Char.ofNat 12 :: p.1, p.2))
    else if e = 'n' then (parseStrAux fuel false rest).map (fun p => ('\n' :: p.1, p.2))
    else if e = 'r' then (parseStrAux fuel false rest).map (fun p => ('\r' :: p.1, p.2))
    else if e = 't' then (parseStrAux fuel false rest).map (fun p => ('\t' :: p.1, p.2))
    else none

/-- Parse the body of a JSON string after the opening quote, returning the
decoded characters and the remainder after the closing quote (a model of
CPython json scanner's string parsing). -/
def parseStringBody (cs : List Char) : Option (List Char × List Char) :=
  parseStrAux (cs.length + 1) false cs

mutual

/-- Parse one JSON value (fuel-based model of Python's recursive-descent
`json.loads` scanner, restricted to the float-free fragment). -/
def parseVal : Nat → List Char → Option (Json × List Char)
  | 0, _ => none
  | Nat.succ f, cs =>
    match skipWs cs with
    | [] => none
    | c :: rest =>
      if c = 'n' then
        if ['u', 'l', 'l'].isPrefixOf rest then some (.null, rest.drop 3) else none
      else if c = 't' then
        if ['r', 'u', 'e'].isPrefixOf rest then some (.bool true, rest.drop 3) else none
      else if c = 'f' then
        if ['a', 'l', 's', 'e'].isPrefixOf rest then some (.bool false, rest.drop 4) else none
      else if c = '"' then
        (parseStringBody rest).map (fun p => (.str p.1, p.2))
      else if c = '[' then
        if (skipWs rest).head? = some ']' then some (.arr [], (skipWs rest).tail)
        else (parseItems f (skipWs rest)).map (fun p => (.arr p.1, p.2))
      else if c = '{' then
        if (skipWs rest).head? = some '}' then some (.obj [], (skipWs rest).tail)
        else (parseMembers f (skipWs rest)).map (fun p => (.obj p.1, p.2))
      else if c = '-' ∨ c.isDigit then parseNum (c :: rest)
      else none

/-- Parse the comma-separated items of a non-empty JSON array, up to and
including the closing bracket. -/
def parseItems : Nat → List Char → Option (List Json × List Char)
  | 0, _ => none
  | Nat.succ f, cs =>
    match parseVal f cs with
    | none => none
    | some (v, r) =>
      match skipWs r with
      | ',' :: r2 => (parseItems f r2).map (fun p => (v :: p.1, p.2))
      | ']' :: r2 => some ([v], r2)
      | _ => none

/-- Parse the members of a non-empty JSON object, up to and including the
closing brace. -/
def parseMembers : Nat → List Char → Option (List (List Char × Json) × List Char)
  | 0, _ => none
  | Nat.succ f, cs =>
    match skipWs cs with
    | '"' :: r =>
      match parseStringBody r with
      | none => none
      | some (k, r2) =>
        match skipWs r2 with
        | ':' :: r3 =>
          match parseVal f r3 with
          | none => none
          | some (v, r4) =>
            match skipWs r4 with
            | ',' :: r5 => (parseMembers f r5).map (fun p => ((k, v) :: p.1, p.2))
            | '}' :: r5 => some ([(k, v)], r5)
            | _ => none
        | _ => none
    | _ => none

end

/-- Model of Python `json.loads`: parse one value and require only whitespace
after it ("Extra data" otherwise).  `none` models a raised
`json.JSONDecodeError`. -/
def pyJsonLoads (s : List Char) : Option Json :=
  match parseVal (s.length + 1) s with
  | some (v, rest) => if (skipWs rest).isEmpty then some v else none
  | none => none

/-- Indentation: `d` spaces. -/
def spaces (d : Nat) : List Char := List.replicate d ' '

mutual

/-- Model of Python `json.dumps(value, indent=2)` at indentation level `d`
(the level the value's container writes before nested lines). -/
def dumpsVal : Json → Nat → List Char
  | .null, _ => ['n', 'u', 'l', 'l']
  | .bool true, _ => ['t', 'r', 'u', 'e']
  | .bool false, _ => ['f', 'a', 'l', 's', 'e']
  | .num n, _ => intChars n
  | .str s, _ => dumpStr s
  | .arr [], _ => ['[', ']']
  | .arr (x :: xs), d =>
      '[' :: '\n' :: (dumpsItems (x :: xs) (d + 2) ++ '\n' :: (spaces d ++ [']']))
  | .obj [], _ => ['{', '}']
  | .obj (kv :: kvs), d =>
      '{' :: '\n' :: (dumpsMembers (kv :: kvs) (d + 2) ++ '\n' :: (spaces d ++ ['}']))

/-- The lines of a non-empty array body, each indented by `d` spaces and
separated by `",\n"`. -/
def dumpsItems : List Json → Nat → List Char
  | [], _ => []
  | [x], d => spaces d ++ dumpsVal x d
  | x :: y :: ys, d =>
      spaces d ++ (dumpsVal x d ++ ',' :: '\n' :: dumpsItems (y :: ys) d)

/-- The lines of a non-empty object body. -/
def dumpsMembers : List (List Char × Json) → Nat → List Char
  | [], _ => []
  | [(k, v)], d => spaces d ++ (dumpStr k ++ ':' :: ' ' :: dumpsVal v d)
  | (k, v) :: kv :: kvs, d =>
      spaces d ++
        (dumpStr k ++ ':' :: ' ' :: (dumpsVal v d ++ ',' :: '\n' :: dumpsMembers (kv :: kvs) d))

end

/-- Model of Python `json.dumps(data, indent=2)`. -/
def jsonDumps (v : Json) : List Char := dumpsVal v 0

/-- What follows the first item in a non-empty array body. -/
def itemsRest (xs : List Json) (d : Nat) : List Char :=
  match xs with
  | [] => []
  | y :: ys => ',' :: '\n' :: dumpsItems (y :: ys) d

/-- What follows the first member in a non-empty object body. -/
def membersRest (kvs : List (List Char × Json)) (d : Nat) : List Char :=
  match kvs with
  | [] => []
  | kv :: kvs' => ',' :: '\n' :: dumpsMembers (kv :: kvs') d


/-- The opening fence marker searched for by `parse_structured_output`. -/
def fenceJson : List Char := "```json".toList

/-- The closing fence marker. -/
def fence : List Char := "```".toList

/-- Model of `BaseLLMProvider.parse_structured_output`: if the text contains
a JSON-labelled fence, parse the stripped slice between the marker and the
next closing fence (Python's `find` returning `-1` makes the slice
`[start:-1]`, all but the last character); otherwise parse the whole text;
a `JSONDecodeError` from either attempt is caught and the sentinel
`\x7b"raw": response_text\x7d` returned. -/
def parse_structured_output (response_text : List Char) : Json :=
  match findSub response_text fenceJson with
  | some i =>
    let start := i + 7
    let tail := response_text.drop start
    let json_str :=
      match findSub tail fence with
      | some e => pyStrip (tail.take e)
      | none => pyStrip tail.dropLast
    match pyJsonLoads json_str with
    | some v => v
    | none => .obj [("raw".toList, .str response_text)]
  | none =>
    match pyJsonLoads response_text with
    | some v => v
    | none => .obj [("raw".toList, .str response_text)]

/-- A single-quote character, used by the Python `repr` model and the prompt
literals. -/
def sqChar : Char := Char.ofNat 39

/-- Wrap a string in single quotes. -/
def quoteS (s : List Char) : List Char := sqChar :: (s ++ [sqChar])

mutual

/-- Model of Python `repr`/`str` of a JSON-safe value, as produced when a
schema dict is interpolated into an f-string (single-quoted strings; string
escaping omitted — the repository only ever renders schema dicts whose
strings contain no characters needing escapes, and no theorem depends on
this text). -/
def reprJson : Json → List Char
  | .null => "None".toList
  | .bool true => "True".toList
  | .bool false => "False".toList
  | .num n => intChars n
  | .str s => quoteS s
  | .arr xs => '[' :: (List.intercalate ", ".toList (reprItems xs) ++ [']'])
  | .obj kvs => '{' :: (List.intercalate ", ".toList (reprFields kvs) ++ ['}'])

def reprItems : List Json → List (List Char)
  | [] => []
  | x :: xs => reprJson x :: reprItems xs

def reprFields : List (List Char × Json) → List (List Char)
  | [] => []
  | (k, v) :: kvs => (quoteS k ++ ':' :: ' ' :: reprJson v) :: reprFields kvs

end

/-- One part of a Gemini request: a text fragment, an image (modelled as an
opaque token), or an uploaded aud file. -/
inductive GPart where
  | txt (s : List Char) : GPart
  | img (i : Nat) : GPart
  | aud (f : List Char) : GPart
deriving DecidableEq, Repr

/-- Abstraction of the Gemini network backend.  `generate` models
`model.generate_content(parts)` together with the `response.text` and
finish-reason accesses inside the `try` block: `Except.error e` models any
exception raised there (network fault, blocked response, aud upload
failure), with `e` its message; on success it yields the response text and
the optional finish-reason name.  `stream` models
`generate_content(parts, stream=True)`: the chunk texts delivered before the
stream ends, plus the message of the exception that interrupts the request
or the iteration, when one does. -/
structure GeminiBackend where
  generate : List GPart → Except (List Char) (List Char × Option (List Char))
  stream : List GPart → List (List Char) × Option (List Char)

/-- The prompt parts built by `GeminiProvider.send_message`; the construction
in `GeminiProvider.stream_response` is textually identical, so both are
embedded through this one definition. -/
def geminiParts (text : List Char) (images : List Nat) (aud_file : Option (List Char))
    (system_prompt : Option (List Char)) : List GPart :=
  (match system_prompt with
   | some s => [GPart.txt ("System instructions: ".toList ++ s ++ "\n\n".toList)]
   | none => []) ++
  (if text.isEmpty then [] else [GPart.txt text]) ++
  images.map GPart.img ++
  (match aud_file with
   | some f => [GPart.aud f]
   | none => [])

/-- Model of `GeminiProvider.send_message`: on success a dict with the
response text and `model`/`finish_reason` metadata; on any exception a dict
whose text is `"Error: "` plus the message and whose metadata carries the
error. -/
def gemini_send_message (B : GeminiBackend) (model_name text : List Char)
    (images : List Nat) (aud_file system_prompt : Option (List Char)) : Json :=
  match B.generate (geminiParts text images aud_file system_prompt) with
  | .ok r =>
      .obj [("response".toList, .str r.1),
            ("metadata".toList,
              .obj [("model".toList, .str model_name),
                    ("finish_reason".toList,
                      match r.2 with
                      | some n => .str n
                      | none => .null)])]
  | .error e =>
      .obj [("response".toList, .str ("Error: ".toList ++ e)),
            ("metadata".toList, .obj [("error".toList, .str e)])]

/-- Model of `GeminiProvider.stream_response`: the generator's yielded
chunks as a list.  Chunks with falsy (empty) text are skipped; an exception
before or during iteration ends the sequence with one inline
`"\n\nError: ..."` chunk instead of propagating. -/
def gemini_stream_response (B : GeminiBackend) (text : List Char) (images : List Nat)
    (aud_file system_prompt : Option (List Char)) : List (List Char) :=
  let r := B.stream (geminiParts text images aud_file system_prompt)
  let yielded := r.1.filter (fun c => !c.isEmpty)
  match r.2 with
  | none => yielded
  | some e => yielded ++ ["\n\nError: ".toList ++ e]

/-- The schema instruction `GeminiProvider.send_with_json_output` appends to
the prompt (the f-string renders the schema dict via `str`). -/
def geminiSchemaStr (schema : Json) : List Char :=
  "\n\nRespond ONLY with valid JSON matching this schema:\n```json\n".toList ++
  reprJson schema ++ "\n```".toList

/-- Model of `GeminiProvider.send_with_json_output`: build the prompt with
the schema instruction, call the backend, parse the response with
`parse_structured_output`; any exception is caught and returned as
`\x7b"error": str(e)\x7d`. -/
def gemini_send_with_json_output (B : GeminiBackend) (text : List Char) (schema : Json)
    (images : List Nat) : Json :=
  match B.generate (GPart.txt (text ++ geminiSchemaStr schema) :: images.map GPart.img) with
  | .ok r => parse_structured_output r.1
  | .error e => .obj [("error".toList, .str e)]

/-- One content block of a Claude request: an image (opaque token standing
for its base64 rendering) or a text block. -/
inductive CBlock where
  | img (i : Nat) : CBlock
  | txt (s : List Char) : CBlock
deriving DecidableEq, Repr

/-- Successful Claude response: text, stop reason and token usage. -/
structure ClaudeResp where
  respText : List Char
  stopReason : List Char
  inputTokens : Nat
  outputTokens : Nat

/-- Abstraction of the Claude network backend: `create` models
`client.messages.create(...)` plus the response-field accesses (content
blocks, system prompt; the fixed model name and `max_tokens` of the message
parameters are folded into the oracle); `stream` models
`client.messages.stream(...)` with its `text_stream` iteration, as for
Gemini. -/
structure ClaudeBackend where
  create : List CBlock → Option (List Char) → Except (List Char) ClaudeResp
  stream : List CBlock → Option (List Char) → List (List Char) × Option (List Char)

/-- The content blocks built by `ClaudeProvider.send_message`: images first,
then the text, then the aud-file notice. -/
def claudeContent (text : List Char) (images : List Nat)
    (aud_file : Option (List Char)) : List CBlock :=
  images.map CBlock.img ++
  (if text.isEmpty then [] else [CBlock.txt text]) ++
  (match aud_file with
   | some f =>
     [CBlock.txt ("\n[Audio file provided: ".toList ++ f ++
        ". Please note: audio processing requires transcription first.]".toList)]
   | none => [])

/-- Model of `ClaudeProvider.send_message`. -/
def claude_send_message (B : ClaudeBackend) (model_name text : List Char)
    (images : List Nat) (aud_file system_prompt : Option (List Char)) : Json :=
  match B.create (claudeContent text images aud_file) system_prompt with
  | .ok r =>
      .obj [("response".toList, .str r.respText),
            ("metadata".toList,
              .obj [("model".toList, .str model_name),
                    ("stop_reason".toList, .str r.stopReason),
                    ("usage".toList,
                      .obj [("input_tokens".toList, .num (r.inputTokens : Int)),
                            ("output_tokens".toList, .num (r.outputTokens : Int))])])]
  | .error e =>
      .obj [("response".toList, .str ("Error: ".toList ++ e)),
            ("metadata".toList, .obj [("error".toList, .str e)])]

/-- Model of `ClaudeProvider.stream_response` (its content build has no
aud-file branch; the aud argument is accepted and ignored, as in the
source). -/
def claude_stream_response (B : ClaudeBackend) (text : List Char) (images : List Nat)
    (_aud_file system_prompt : Option (List Char)) : List (List Char) :=
  let content := images.map CBlock.img ++ (if text.isEmpty then [] else [CBlock.txt text])
  let r := B.stream content system_prompt
  match r.2 with
  | none => r.1
  | some e => r.1 ++ ["\n\nError: ".toList ++ e]

/-- Model of Python `d[k]` on a dict: `Except.error` models the `KeyError`
(missing key) or `TypeError`/`AttributeError` (receiver not a dict). -/
def pyGetItem (j : Json) (k : List Char) : Except (List Char) Json :=
  match j with
  | .obj kvs =>
    match kvs.find? (fun kv => decide (kv.1 = k)) with
    | some kv => .ok kv.2
    | none => .error "KeyError".toList
  | _ => .error "TypeError".toList

/-- Model of `ClaudeProvider.send_with_json_output`: append the schema
instruction, call `send_message` (which never raises) and parse its
`response` text; the `except` branch returning `\x7b"error": str(e)\x7d` is
reachable only if the body raised, which with a well-formed `send_message`
result it never does. -/
def claude_send_with_json_output (B : ClaudeBackend) (model_name text : List Char)
    (schema : Json) (images : List Nat) : Json :=
  let schema_prompt := text ++ geminiSchemaStr schema
  let resp := claude_send_message B model_name schema_prompt images none none
  match pyGetItem resp "response".toList with
  | .ok (.str t) => parse_structured_output t
  | .ok _ => .obj [("error".toList, .str "TypeError".toList)]
  | .error e => .obj [("error".toList, .str e)]

/-- Abstraction of the optional `toon_format` package: `none` in a field
models an `ImportError` on `from toon_format import ...`; `Except.error`
models the imported function raising (any non-`ImportError` exception). -/
structure ToonLib where
  enc : Option (Json → Except (List Char) (List Char))
  dec : Option (List Char → Except (List Char) Json)

/-- Model of `toon_formatter.encode_toon`: try the package encoder and fall
back to `json.dumps(data, indent=2)` on `ImportError` or on any encoding
exception; it never raises. -/
def encode_toon (T : ToonLib) (data : Json) : List Char :=
  match T.enc with
  | none => jsonDumps data
  | some f =>
    match f data with
    | .ok s => s
    | .error _ => jsonDumps data

/-- Model of `toon_formatter.decode_toon`.  Unlike `encode_toon`, the
fallback `json.loads` runs inside the `except ImportError` handler, so a
`JSONDecodeError` it raises propagates out of the function
(`Except.error`); and when the package decoder itself raises, the function
returns `None` (`Except.ok none`) instead of attempting a JSON parse. -/
def decode_toon (T : ToonLib) (toon_str : List Char) : Except (List Char) (Option Json) :=
  match T.dec with
  | none =>
    match pyJsonLoads toon_str with
    | some v => .ok (some v)
    | none => .error "JSONDecodeError".toList
  | some f =>
    match f toon_str with
    | .ok v => .ok (some v)
    | .error _ => .ok none

/-- Python `d.get(key, default)` with a receiver already known to be a dict
(association list): total, returning the first binding or the default. -/
def objGetD (kvs : List (List Char × Json)) (k : List Char) (dflt : Json) : Json :=
  match kvs.find? (fun kv => decide (kv.1 = k)) with
  | some kv => kv.2
  | none => dflt

/-- Model of Python `x.get(key, default)`: `none` models the
`AttributeError` raised when the receiver is not a dict. -/
def pyGetD (j : Json) (k : List Char) (dflt : Json) : Option Json :=
  match j with
  | .obj kvs => some (objGetD kvs k dflt)
  | _ => none

/-- Dictionary lookup used by the theorems to inspect result values. -/
def jsonGet (j : Json) (k : List Char) : Option Json :=
  match j with
  | .obj kvs => (kvs.find? (fun kv => decide (kv.1 = k))).map (fun kv => kv.2)
  | _ => none

/-- Whether a value is a dict carrying the given key. -/
def jsonHasKey (j : Json) (k : List Char) : Bool := (jsonGet j k).isSome

/-- Python truthiness of a JSON-safe value (`None`, `False`, `0`, `""`,
`[]`, `\x7b\x7d` are falsy). -/
def pyTruthy : Json → Bool
  | .null => false
  | .bool b => b
  | .num n => decide (n ≠ 0)
  | .str s => !s.isEmpty
  | .arr xs => !xs.isEmpty
  | .obj kvs => !kvs.isEmpty

/-- Python `str(x)` as an f-string interpolates it (identity on strings; the
renderer only ever interpolates strings on the verified paths). -/
def pyStr : Json → List Char
  | .str s => s
  | .null => "None".toList
  | .bool true => "True".toList
  | .bool false => "False".toList
  | .num n => intChars n
  | .arr xs => reprJson (.arr xs)
  | .obj kvs => reprJson (.obj kvs)

/-- Python iteration over a value: lists give their items, strings their
characters, dicts their keys; other values raise `TypeError` (`none`). -/
def pyIter : Json → Option (List Json)
  | .arr xs => some xs
  | .str s => some (s.map (fun c => Json.str [c]))
  | .obj kvs => some (kvs.map (fun kv => Json.str kv.1))
  | _ => none

/-- Python `str.upper()` (ASCII; the only strings upper-cased here are the
ASCII problem-type tags). -/
def pyUpper (s : List Char) : List Char := s.map Char.toUpper

/-- The Stage-1 extraction schema of `_step_classify_and_extract`. -/
def extraction_schema : Json :=
  .obj [("type".toList, .str "object".toList),
        ("properties".toList,
          .obj [("problem_type".toList,
                  .obj [("type".toList, .str "string".toList),
                        ("enum".toList,
                          .arr [.str "coding".toList, .str "multiple_choice".toList,
                                .str "math".toList, .str "general".toList])]),
                ("problem_statement".toList, .obj [("type".toList, .str "string".toList)]),
                ("details".toList, .obj [("type".toList, .str "object".toList)])]),
        ("required".toList,
          .arr [.str "problem_type".toList, .str "problem_statement".toList,
                .str "details".toList])]

/-- The triple-quoted system instruction of `_step_classify_and_extract`
(single quotes spelled via `quoteS`). -/
def classify_system_instruction : List Char :=
  "\n        You are an expert analyst. Analyze the provided image(s).\n        \n        STEP 1: CLASSIFY THE PROBLEM TYPE\n        - ".toList ++
  quoteS "coding".toList ++
  ": Code snippets, IDEs, programming errors.\n        - ".toList ++
  quoteS "multiple_choice".toList ++
  ": Quizzes with options.\n        - ".toList ++
  quoteS "math".toList ++
  ": Equations, calculus, geometry.\n        - ".toList ++
  quoteS "general".toList ++
  ": Text questions, logic, etc.\n        \n        STEP 2: EXTRACT DATA\n        Return a valid JSON object with:\n        \x7b\n          \"problem_type\": \"...\",\n          \"problem_statement\": \"Full extracted text of the problem\",\n          \"details\": \x7b\n             \"language\": \"python/js/etc (if coding)\",\n             \"code_snippet\": \"extracted code (if coding)\",\n             \"options\": [] (if multiple choice),\n             \"context\": \"...\" \n          \x7d\n        \x7d\n        ".toList

/-- Model of `SmartGeminiProvider._step_classify_and_extract`: one
`send_with_json_output` call with the extraction schema and the images. -/
def step_classify_and_extract (B : GeminiBackend) (user_prompt : List Char)
    (images : List Nat) : Json :=
  gemini_send_with_json_output B
    (classify_system_instruction ++ "\n\nUser Note: ".toList ++ user_prompt)
    extraction_schema images

/-- The coding-branch solution schema of `_step_generate_solution`. -/
def coding_solution_schema : Json :=
  .obj [("type".toList, .str "object".toList),
        ("properties".toList,
          .obj [("solution".toList,
            .obj [("type".toList, .str "object".toList),
                  ("properties".toList,
                    .obj [("algorithm_steps".toList, .obj [("type".toList, .str "string".toList)]),
                          ("code".toList, .obj [("type".toList, .str "string".toList)]),
                          ("time_complexity".toList, .obj [("type".toList, .str "string".toList)]),
                          ("space_complexity".toList, .obj [("type".toList, .str "string".toList)]),
                          ("edge_cases".toList,
                            .obj [("type".toList, .str "array".toList),
                                  ("items".toList, .obj [("type".toList, .str "string".toList)])])]),
                  ("required".toList,
                    .arr [.str "algorithm_steps".toList, .str "code".toList,
                          .str "time_complexity".toList, .str "space_complexity".toList,
                          .str "edge_cases".toList])])])]

/-- The non-coding solution schema of `_step_generate_solution`. -/
def general_solution_schema : Json :=
  .obj [("type".toList, .str "object".toList),
        ("properties".toList,
          .obj [("solution".toList,
            .obj [("type".toList, .str "object".toList),
                  ("properties".toList,
                    .obj [("answer".toList, .obj [("type".toList, .str "string".toList)]),
                          ("reasoning".toList, .obj [("type".toList, .str "string".toList)])]),
                  ("required".toList,
                    .arr [.str "answer".toList, .str "reasoning".toList])])])]

/-- The coding-branch role prompt. -/
def coding_role_prompt : List Char :=
  "You are a Senior Software Engineer. Provide an optimal code solution.".toList

/-- The non-coding role prompt. -/
def general_role_prompt : List Char := "You are a helpful expert assistant.".toList

/-- The coding-branch output description. -/
def coding_output_desc : List Char :=
  "Return JSON with these exact keys:\n- ".toList ++
  quoteS "algorithm_steps".toList ++
  ": Clear, numbered steps of the algorithm.\n- ".toList ++
  quoteS "code".toList ++
  ": The full solution code (no markdown fences in JSON).\n- ".toList ++
  quoteS "time_complexity".toList ++
  ": Big O notation with brief explanation.\n- ".toList ++
  quoteS "space_complexity".toList ++
  ": Big O notation with brief explanation.\n- ".toList ++
  quoteS "edge_cases".toList ++
  ": A list of edge cases considered.\n".toList

/-- The non-coding output description. -/
def general_output_desc : List Char :=
  "Return JSON: \x7b ".toList ++ quoteS "solution".toList ++ ": \x7b ".toList ++
  quoteS "answer".toList ++ ": ".toList ++ quoteS "...".toList ++ ", ".toList ++
  quoteS "reasoning".toList ++ ": ".toList ++ quoteS "...".toList ++ " \x7d \x7d".toList

/-- The f-string prompt of `_step_generate_solution`. -/
def solution_prompt (role context_str output_desc : List Char) : List Char :=
  "\n        ".toList ++ role ++
  "\n        \n        PROBLEM CONTEXT (TOON Format):\n        ".toList ++ context_str ++
  "\n        \n        TASK:\n        Solve the problem above.\n        ".toList ++
  output_desc ++ "\n        ".toList

/-- Model of `SmartGeminiProvider._step_generate_solution`: read the problem
type (the `.get` raises when `problem_info` is not a dict — the only
exception this step can raise), TOON-encode the problem info, branch on
`problem_type == "coding"` for role, schema and output description, and
issue one `send_with_json_output` call without images. -/
def step_generate_solution (B : GeminiBackend) (T : ToonLib) (problem_info : Json) :
    Except (List Char) Json :=
  match pyGetD problem_info "problem_type".toList (.str "general".toList) with
  | none => .error "AttributeError".toList
  | some ptype =>
    let context_str := encode_toon T problem_info
    if ptype = .str "coding".toList then
      .ok (gemini_send_with_json_output B
        (solution_prompt coding_role_prompt context_str coding_output_desc)
        coding_solution_schema [])
    else
      .ok (gemini_send_with_json_output B
        (solution_prompt general_role_prompt context_str general_output_desc)
        general_solution_schema [])

/-- Model of `SmartGeminiProvider._format_solution_markdown`.  `none` models
an exception escaping the renderer: `solution_data`/`problem_info` not a
dict, a non-string `problem_type` (its `.upper()`), `solution` bound to a
non-dict, a truthy non-iterable `edge_cases`, a non-dict `details`, or a
truthy non-string code value (its `.strip()`). -/
def format_solution_markdown (solution_data problem_info : Json) : Option (List Char) :=
  match solution_data, problem_info with
  | .obj sdkvs, .obj pikvs =>
    let sol := objGetD sdkvs "solution".toList (.obj [])
    match objGetD pikvs "problem_type".toList (.str "general".toList) with
    | .str ptype =>
      let badge := "**Type:** `".toList ++ pyUpper ptype ++ "`\n\n".toList
      if ptype = "coding".toList then
        match sol with
        | .obj skvs =>
          let steps := objGetD skvs "algorithm_steps".toList (.str [])
          let sec_steps :=
            if pyTruthy steps then
              "### Algorithm Steps\n".toList ++ pyStr steps ++ "\n\n".toList
            else
              let r := objGetD skvs "reasoning".toList .null
              if pyTruthy r then
                "### Algorithm Steps\n".toList ++ pyStr r ++ "\n\n".toList
              else []
          let edge_cases := objGetD skvs "edge_cases".toList (.arr [])
          let sec_edge? : Option (List Char) :=
            if pyTruthy edge_cases then
              match pyIter edge_cases with
              | some items =>
                some ("### Edge Cases\n".toList ++
                  (items.map (fun ec => "- ".toList ++ pyStr ec ++ ['\n'])).flatten ++
                  ['\n'])
              | none => none
            else some []
          match sec_edge? with
          | none => none
          | some sec_edge =>
            let code0 := objGetD skvs "code".toList (.str [])
            let code1 := if !pyTruthy code0 then objGetD skvs "answer".toList (.str []) else code0
            let sec_code? : Option (List Char) :=
              if pyTruthy code1 then
                match pyGetD (objGetD pikvs "details".toList (.obj []))
                    "language".toList (.str "python".toList) with
                | none => none
                | some langV =>
                  match code1 with
                  | .str ct =>
                    let wrapped :=
                      if fence.isPrefixOf (pyStrip ct) then ct
                      else "``` ".toList ++ pyStr langV ++ ['\n'] ++ ct ++ "\n```".toList
                    some ("### Code Section\n".toList ++ wrapped ++ "\n\n".toList)
                  | _ => none
              else some []
            match sec_code? with
            | none => none
            | some sec_code =>
              let tc := objGetD skvs "time_complexity".toList .null
              let sc := objGetD skvs "space_complexity".toList .null
              let sec_complex :=
                if pyTruthy tc || pyTruthy sc then
                  "### Complexity\n".toList ++
                  (if pyTruthy tc then "- **Time**: ".toList ++ pyStr tc ++ ['\n'] else []) ++
                  (if pyTruthy sc then "- **Space**: ".toList ++ pyStr sc ++ ['\n'] else []) ++
                  ['\n']
                else []
              some (badge ++ sec_steps ++ sec_edge ++ sec_code ++ sec_complex)
        | _ => none
      else
        match sol with
        | .obj skvs =>
          let answer := objGetD skvs "answer".toList (.str [])
          let reasoning := objGetD skvs "reasoning".toList (.str [])
          some (badge ++
            (if pyTruthy reasoning then
              "### Analysis\n".toList ++ pyStr reasoning ++ "\n\n".toList
             else []) ++
            (if pyTruthy answer then "### Solution\n".toList ++ pyStr answer else []))
        | _ => none
    | _ => none
  | _, _ => none

/-- Model of `SmartGeminiProvider.send_message`: without images, fall back
directly to the plain `GeminiProvider.send_message`; otherwise run the three
steps, and if step 2 or step 3 raises (step 1 cannot: its exceptions are all
swallowed inside `send_with_json_output`), catch the exception and return
the plain call on the original arguments. -/
def smart_send_message (B : GeminiBackend) (T : ToonLib) (model_name text : List Char)
    (images : List Nat) (aud_file system_prompt : Option (List Char)) : Json :=
  if images.isEmpty then gemini_send_message B model_name text images aud_file system_prompt
  else
    let problem_info := step_classify_and_extract B text images
    match step_generate_solution B T problem_info with
    | .error _ => gemini_send_message B model_name text images aud_file system_prompt
    | .ok solution_data =>
      match format_solution_markdown solution_data problem_info with
      | none => gemini_send_message B model_name text images aud_file system_prompt
      | some final_markdown =>
        .obj [("response".toList, .str final_markdown),
              ("metadata".toList,
                .obj [("model".toList, .str model_name),
                      ("problem_info".toList, problem_info),
                      ("raw_solution".toList, solution_data)])]

/-- A backend all of whose requests fail with the message `boom`; its
stream yields one chunk and then fails. -/
def failingGemini : GeminiBackend :=
  { generate := fun _ => .error "boom".toList,
    stream := fun _ => (["a".toList], some "boom".toList) }

/-- A Claude backend all of whose requests fail with the message `boom`. -/
def failingClaude : ClaudeBackend :=
  { create := fun _ _ => .error "boom".toList,
    stream := fun _ _ => (["a".toList], some "boom".toList) }

/-- A backend that always answers with a JSON object whose `problem_type`
lies outside the four-way enum. -/
def weirdBackend : GeminiBackend :=
  { generate := fun _ => .ok ("\x7b\"problem_type\": \"weird\"\x7d".toList, none),
    stream := fun _ => ([], none) }

/-- A backend whose answers parse to a JSON list, so that Stage 2's
`problem_info.get` raises an `AttributeError`. -/
def listBackend : GeminiBackend :=
  { generate := fun _ => .ok ("[1, 2]".toList, none),
    stream := fun _ => ([], none) }

/-- The library state with the `toon_format` package absent. -/
def noToon : ToonLib := { enc := none, dec := none }

/-! Auxiliary lemmas: whitespace skipping and substring search. -/

theorem skipWs_cons_of_not_ws {c : Char} (x : List Char) (h : isJsonWs c = false) :
    skipWs (c :: x) = c :: x := by
  simp [skipWs, List.dropWhile_cons, h]

theorem skipWs_append_of_allWs {ws : List Char} (x : List Char) (h : allWs ws = true) :
    skipWs (ws ++ x) = skipWs x := by
  induction ws with
  | nil => simp
  | cons c t ih =>
    simp only [allWs, List.all_cons, Bool.and_eq_true] at h
    simpa [skipWs, List.dropWhile_cons, h.1] using ih (by simpa [allWs] using h.2)

theorem skipWs_skipWs (cs : List Char) : skipWs (skipWs cs) = skipWs cs := by
  induction cs with
  | nil => rfl
  | cons c t ih =>
    by_cases h : isJsonWs c = true
    · simpa [skipWs, List.dropWhile_cons, h] using ih
    · simp only [Bool.not_eq_true] at h
      rw [skipWs_cons_of_not_ws t h, skipWs_cons_of_not_ws t h]

theorem findSub_eq_some {needle : List Char} :
    ∀ (hay : List Char) (p : Nat), needle <+: hay.drop p →
      (∀ k < p, ¬ needle <+: hay.drop k) → findSub hay needle = some p := by
  intro hay
  induction hay with
  | nil =>
    intro p h1 h2
    simp only [List.drop_nil, List.prefix_nil] at h1
    subst h1
    have hp : p = 0 := by
      by_contra hne
      exact h2 0 (Nat.pos_of_ne_zero hne) (by simp)
    subst hp
    simp [findSub]
  | cons c t ih =>
    intro p h1 h2
    by_cases hp : needle <+: (c :: t)
    · have hp0 : p = 0 := by
        by_contra hne
        exact h2 0 (Nat.pos_of_ne_zero hne) (by simpa using hp)
      subst hp0
      simp [findSub, List.isPrefixOf_iff_prefix.mpr hp]
    · have hp' : needle.isPrefixOf (c :: t) = false := by
        rw [Bool.eq_false_iff]
        exact fun hb => hp (List.isPrefixOf_iff_prefix.mp hb)
      obtain ⟨q, rfl⟩ : ∃ q, p = q + 1 := by
        cases p with
        | zero => exact absurd (by simpa using h1) hp
        | succ q => exact ⟨q, rfl⟩
      rw [findSub, if_neg (by simp [hp'])]
      rw [ih q (by simpa using h1)
        (fun k hk => by simpa using h2 (k + 1) (by omega))]
      rfl

theorem prefix_of_append_right {needle X post : List Char} (h : needle <+: X ++ post)
    (hl : needle.length ≤ X.length) : needle <+: X :=
  List.prefix_of_prefix_length_le h (List.prefix_append X post) hl

theorem findSub_first (pre needle tail : List Char)
    (h2 : ∀ k < pre.length, ¬ needle <+: (pre ++ needle).drop k) :
    findSub (pre ++ (needle ++ tail)) needle = some pre.length := by
  apply findSub_eq_some
  · have hd : List.drop pre.length (pre ++ (needle ++ tail)) = needle ++ tail :=
      List.drop_left pre (needle ++ tail)
    rw [hd]
    exact List.prefix_append needle tail
  · intro k hk hpre
    apply h2 k hk
    have heq : (pre ++ (needle ++ tail)).drop k = (pre ++ needle).drop k ++ tail := by
      rw [← List.append_assoc, List.drop_append_eq_append_drop]
      simp only [List.length_append]
      rw [Nat.sub_eq_zero_of_le (by omega), List.drop_zero]
    rw [heq] at hpre
    exact prefix_of_append_right hpre (by simp; omega)

/-! Digit, hex and number lemmas. -/

theorem hexVal_hexDigitChar {k : Nat} (h : k < 16) : hexVal (hexDigitChar k) = some k := by
  interval_cases k <;> decide

theorem hexDigitChar_isDigit {k : Nat} (h : k < 10) : (hexDigitChar k).isDigit = true := by
  interval_cases k <;> decide

theorem digitVal_hexDigitChar {k : Nat} (h : k < 10) : digitVal (hexDigitChar k) = k := by
  interval_cases k <;> decide

theorem natChars_ne_nil (n : Nat) : natChars n ≠ [] := by
  rw [natChars]
  split <;> simp

theorem natChars_all_digits (n : Nat) : ∀ c ∈ natChars n, c.isDigit = true := by
  induction n using Nat.strong_induction_on with
  | _ n ih =>
    rw [natChars]
    split
    · next h =>
      intro c hc
      simp only [List.mem_singleton] at hc
      subst hc
      exact hexDigitChar_isDigit h
    · next h =>
      intro c hc
      rw [List.mem_append] at hc
      rcases hc with hc | hc
      · exact ih (n / 10) (by omega) c hc
      · simp only [List.mem_singleton] at hc
        subst hc
        exact hexDigitChar_isDigit (Nat.mod_lt _ (by norm_num))

theorem natChars_head_digit (n : Nat) :
    ∃ c t, natChars n = c :: t ∧ c.isDigit = true := by
  cases h : natChars n with
  | nil => exact absurd h (natChars_ne_nil n)
  | cons c t =>
    exact ⟨c, t, rfl, natChars_all_digits n c (by rw [h]; exact List.mem_cons_self c t)⟩

theorem digit_ne {c d : Char} (h : c.isDigit = true) (hd : d.isDigit = false) : c ≠ d := by
  intro hcd
  rw [hcd, hd] at h
  cases h

theorem digit_not_ws {c : Char} (h : c.isDigit = true) : isJsonWs c = false := by
  have h1 : (c == ' ') = false := by simpa using digit_ne h (by decide)
  have h2 : (c == '\t') = false := by simpa using digit_ne h (by decide)
  have h3 : (c == '\n') = false := by simpa using digit_ne h (by decide)
  have h4 : (c == '\r') = false := by simpa using digit_ne h (by decide)
  simp [isJsonWs, h1, h2, h3, h4]

theorem natChars_head_ne_zero : ∀ n, 1 ≤ n → ∀ c, (natChars n).head? = some c → c ≠ '0' := by
  intro n
  induction n using Nat.strong_induction_on with
  | _ n ih =>
    intro hn c hc
    rw [natChars] at hc
    split at hc
    · next h =>
      simp only [List.head?_cons, Option.some.injEq] at hc
      subst hc
      interval_cases n <;> decide
    · next h =>
      obtain ⟨c0, t0, heq, _⟩ := natChars_head_digit (n / 10)
      rw [heq] at hc
      simp only [List.cons_append, List.head?_cons, Option.some.injEq] at hc
      subst hc
      exact ih (n / 10) (by omega) (by omega) c0 (by rw [heq]; rfl)

theorem natChars_no_leading_zero (n : Nat) :
    ¬(1 < (natChars n).length ∧ (natChars n).head? = some '0') := by
  rintro ⟨hl, hh⟩
  by_cases hn : n < 10
  · rw [natChars, if_pos hn] at hl
    simp at hl
  · exact natChars_head_ne_zero n (by omega) '0' hh rfl

theorem digitsToNat_append_singleton (l : List Char) (c : Char) :
    digitsToNat (l ++ [c]) = 10 * digitsToNat l + digitVal c := by
  simp [digitsToNat, List.foldl_append]

theorem digitsToNat_natChars (n : Nat) : digitsToNat (natChars n) = n := by
  induction n using Nat.strong_induction_on with
  | _ n ih =>
    rw [natChars]
    split
    · next h =>
      simp [digitsToNat, digitVal_hexDigitChar h]
    · next h =>
      rw [digitsToNat_append_singleton, ih (n / 10) (by omega),
        digitVal_hexDigitChar (Nat.mod_lt _ (by norm_num))]
      omega

theorem takeWhile_all_append {p : Char → Bool} {l : List Char} (r : List Char)
    (h : ∀ c ∈ l, p c = true) : (l ++ r).takeWhile p = l ++ r.takeWhile p := by
  induction l with
  | nil => simp
  | cons c t ih =>
    simp only [List.cons_append, List.takeWhile_cons, h c (by simp)]
    simp [ih (fun d hd => h d (by simp [hd]))]

theorem takeWhile_isDigit_of_numDelim {rest : List Char} (h : numDelim rest = true) :
    rest.takeWhile Char.isDigit = [] := by
  cases rest with
  | nil => rfl
  | cons c t =>
    simp only [numDelim, Bool.not_eq_eq_eq_not, Bool.not_true, Bool.or_eq_false_iff] at h
    simp [List.takeWhile_cons, h.1]

theorem parseNumDigits_natChars (n : Nat) (rest : List Char) (h : numDelim rest = true) :
    parseNumDigits (natChars n ++ rest) = some (n, rest) := by
  simp only [parseNumDigits,
    takeWhile_all_append rest (natChars_all_digits n),
    takeWhile_isDigit_of_numDelim h, List.append_nil]
  rw [if_neg (by simp [natChars_ne_nil n]), if_neg (natChars_no_leading_zero n),
    List.drop_left, if_pos h, digitsToNat_natChars]

theorem parseNum_intChars (n : Int) (rest : List Char) (h : numDelim rest = true) :
    parseNum (intChars n ++ rest) = some (.num n, rest) := by
  by_cases hn : n < 0
  · rw [intChars, if_pos hn]
    simp [parseNum, parseNumDigits_natChars n.natAbs rest h, abs_of_neg hn]
  · rw [intChars, if_neg hn]
    obtain ⟨c, t, heq, hd⟩ := natChars_head_digit n.natAbs
    have hc' : c ≠ '-' := digit_ne hd (by decide)
    rw [heq]
    simp only [parseNum, List.cons_append, List.head?_cons, Option.some.injEq,
      if_neg (by simpa using hc')]
    have hback : c :: (t ++ rest) = natChars n.natAbs ++ rest := by rw [heq]; rfl
    rw [hback, parseNumDigits_natChars n.natAbs rest h]
    simp [abs_of_nonneg (not_lt.mp hn)]

/-! String escaping round trip. -/

theorem char_valid_toNat (c : Char) :
    c.toNat < 0xD800 ∨ (0xDFFF < c.toNat ∧ c.toNat < 0x110000) := c.valid


theorem parseStrAux_quote (f : Nat) (rest : List Char) :
    parseStrAux (f + 1) false ('"' :: rest) = some ([], rest) := rfl

theorem parseStrAux_cons (f : Nat) (c : Char) (rest : List Char) :
    parseStrAux (f + 1) false (c :: rest) =
      if c = '"' then some ([], rest)
      else if c = '\\' then parseStrAux f true rest
      else if c.toNat < 0x20 then none
      else (parseStrAux f false rest).map (fun p => (c :: p.1, p.2)) := rfl

theorem parseStrAux_esc_quote (f : Nat) (rest : List Char) :
    parseStrAux (f + 2) false ('\\' :: '"' :: rest) =
      (parseStrAux f false rest).map (fun p => ('"' :: p.1, p.2)) := rfl

theorem parseStrAux_esc_bslash (f : Nat) (rest : List Char) :
    parseStrAux (f + 2) false ('\\' :: '\\' :: rest) =
      (parseStrAux f false rest).map (fun p => ('\\' :: p.1, p.2)) := rfl

theorem parseStrAux_esc_n (f : Nat) (rest : List Char) :
    parseStrAux (f + 2) false ('\\' :: 'n' :: rest) =
      (parseStrAux f false rest).map (fun p => ('\n' :: p.1, p.2)) := rfl

theorem parseStrAux_esc_r (f : Nat) (rest : List Char) :
    parseStrAux (f + 2) false ('\\' :: 'r' :: rest) =
      (parseStrAux f false rest).map (fun p => ('\r' :: p.1, p.2)) := rfl

theorem parseStrAux_esc_t (f : Nat) (rest : List Char) :
    parseStrAux (f + 2) false ('\\' :: 't' :: rest) =
      (parseStrAux f false rest).map (fun p => ('\t' :: p.1, p.2)) := rfl

theorem parseStrAux_esc_b (f : Nat) (rest : List Char) :
    parseStrAux (f + 2) false ('\\' :: 'b' :: rest) =
      (parseStrAux f false rest).map (fun p => (Char.ofNat 8 :: p.1, p.2)) := rfl

theorem parseStrAux_esc_f (f : Nat) (rest : List Char) :
    parseStrAux (f + 2) false ('\\' :: 'f' :: rest) =
      (parseStrAux f false rest).map (fun p => (Char.ofNat 12 :: p.1, p.2)) := rfl

theorem parseStrAux_u_step (f : Nat) (a b c d : Char) (r : List Char) (va vb vc vd : Nat)
    (Ha : hexVal a = some va) (Hb : hexVal b = some vb)
    (Hc : hexVal c = some vc) (Hd : hexVal d = some vd)
    (hn1 : ¬(0xD800 ≤ 4096 * va + 256 * vb + 16 * vc + vd ∧
        4096 * va + 256 * vb + 16 * vc + vd < 0xDC00))
    (hn2 : ¬(0xDC00 ≤ 4096 * va + 256 * vb + 16 * vc + vd ∧
        4096 * va + 256 * vb + 16 * vc + vd < 0xE000)) :
    parseStrAux (f + 2) false ('\\' :: 'u' :: a :: b :: c :: d :: r) =
      (parseStrAux f false r).map
        (fun p => (Char.ofNat (4096 * va + 256 * vb + 16 * vc + vd) :: p.1, p.2)) := by
  simp only [parseStrAux, Char.reduceEq, reduceIte, Ha, Hb, Hc, Hd,
    if_neg hn1, if_neg hn2]

theorem parseStrAux_u_pair (f : Nat) (a b c d a2 b2 c2 d2 : Char) (r : List Char)
    (va vb vc vd va2 vb2 vc2 vd2 : Nat)
    (Ha : hexVal a = some va) (Hb : hexVal b = some vb)
    (Hc : hexVal c = some vc) (Hd : hexVal d = some vd)
    (Ha2 : hexVal a2 = some va2) (Hb2 : hexVal b2 = some vb2)
    (Hc2 : hexVal c2 = some vc2) (Hd2 : hexVal d2 = some vd2)
    (hhi : 0xD800 ≤ 4096 * va + 256 * vb + 16 * vc + vd ∧
        4096 * va + 256 * vb + 16 * vc + vd < 0xDC00)
    (hlo : 0xDC00 ≤ 4096 * va2 + 256 * vb2 + 16 * vc2 + vd2 ∧
        4096 * va2 + 256 * vb2 + 16 * vc2 + vd2 < 0xE000) :
    parseStrAux (f + 2) false
        ('\\' :: 'u' :: a :: b :: c :: d :: '\\' :: 'u' :: a2 :: b2 :: c2 :: d2 :: r) =
      (parseStrAux f false r).map
        (fun p => (Char.ofNat (0x10000 +
            0x400 * (4096 * va + 256 * vb + 16 * vc + vd - 0xD800) +
            (4096 * va2 + 256 * vb2 + 16 * vc2 + vd2 - 0xDC00)) :: p.1, p.2)) := by
  simp only [parseStrAux, Char.reduceEq, reduceIte, Ha, Hb, Hc, Hd,
    Ha2, Hb2, Hc2, Hd2, if_pos hhi, if_pos hlo, and_self, if_true]

set_option maxHeartbeats 1600000 in
theorem parseStrAux_escStr (s : List Char) : ∀ (f : Nat) (rest : List Char),
    (escStr s).length < f →
    parseStrAux f false (escStr s ++ '"' :: rest) = some (s, rest) := by
  induction s with
  | nil =>
    intro f rest hf
    obtain ⟨g, rfl⟩ : ∃ g, f = g + 1 := ⟨f - 1, by omega⟩
    simp only [escStr, List.map_nil, List.flatten_nil, List.nil_append]
    exact parseStrAux_quote g rest
  | cons c s ih =>
    intro f rest hf
    have hsplit : escStr (c :: s) = escChar c ++ escStr s := by
      simp [escStr]
    rw [hsplit] at hf
    rw [hsplit, List.append_assoc]
    have hlen : (escChar c).length + (escStr s).length < f := by
      simpa [List.length_append] using hf
    rw [escChar]
    split_ifs with hq hb hn hr ht h8c h12c h20 h7F h10000
    · subst hq
      simp [escChar] at hlen
      obtain ⟨g, rfl⟩ : ∃ g, f = g + 2 := ⟨f - 2, by omega⟩
      rw [List.cons_append, List.cons_append, List.nil_append, parseStrAux_esc_quote,
        ih g rest (by omega)]
      rfl
    · subst hb
      simp [escChar] at hlen
      obtain ⟨g, rfl⟩ : ∃ g, f = g + 2 := ⟨f - 2, by omega⟩
      rw [List.cons_append, List.cons_append, List.nil_append, parseStrAux_esc_bslash,
        ih g rest (by omega)]
      rfl
    · subst hn
      simp [escChar] at hlen
      obtain ⟨g, rfl⟩ : ∃ g, f = g + 2 := ⟨f - 2, by omega⟩
      rw [List.cons_append, List.cons_append, List.nil_append, parseStrAux_esc_n,
        ih g rest (by omega)]
      rfl
    · subst hr
      simp [escChar] at hlen
      obtain ⟨g, rfl⟩ : ∃ g, f = g + 2 := ⟨f - 2, by omega⟩
      rw [List.cons_append, List.cons_append, List.nil_append, parseStrAux_esc_r,
        ih g rest (by omega)]
      rfl
    · subst ht
      simp [escChar] at hlen
      obtain ⟨g, rfl⟩ : ∃ g, f = g + 2 := ⟨f - 2, by omega⟩
      rw [List.cons_append, List.cons_append, List.nil_append, parseStrAux_esc_t,
        ih g rest (by omega)]
      rfl
    · have hc8 : c = Char.ofNat 8 := by rw [← h8c, Char.ofNat_toNat]
      have hlc : (escChar c).length = 2 := by
        simp [escChar, hq, hb, hn, hr, ht, h8c]
      obtain ⟨g, rfl⟩ : ∃ g, f = g + 2 := ⟨f - 2, by omega⟩
      rw [List.cons_append, List.cons_append, List.nil_append, parseStrAux_esc_b,
        ih g rest (by omega), hc8]
      rfl
    · have hc12 : c = Char.ofNat 12 := by rw [← h12c, Char.ofNat_toNat]
      have hlc : (escChar c).length = 2 := by
        simp [escChar, hq, hb, hn, hr, ht, h8c, h12c]
      obtain ⟨g, rfl⟩ : ∃ g, f = g + 2 := ⟨f - 2, by omega⟩
      rw [List.cons_append, List.cons_append, List.nil_append, parseStrAux_esc_f,
        ih g rest (by omega), hc12]
      rfl
    · have hlc : (escChar c).length = 6 := by
        simp [escChar, hq, hb, hn, hr, ht, h8c, h12c, h20, uEsc]
      obtain ⟨g, rfl⟩ : ∃ g, f = g + 2 := ⟨f - 2, by omega⟩
      simp only [uEsc, List.cons_append, List.nil_append]
      have h1 : c.toNat / 4096 % 16 < 16 := Nat.mod_lt _ (by norm_num)
      have h2 : c.toNat / 256 % 16 < 16 := Nat.mod_lt _ (by norm_num)
      have h3 : c.toNat / 16 % 16 < 16 := Nat.mod_lt _ (by norm_num)
      have h4 : c.toNat % 16 < 16 := Nat.mod_lt _ (by norm_num)
      have harith : 4096 * (c.toNat / 4096 % 16) + 256 * (c.toNat / 256 % 16) +
          16 * (c.toNat / 16 % 16) + c.toNat % 16 = c.toNat := by omega
      rw [parseStrAux_u_step g _ _ _ _ _ _ _ _ _ (hexVal_hexDigitChar h1)
        (hexVal_hexDigitChar h2) (hexVal_hexDigitChar h3) (hexVal_hexDigitChar h4)
        (by omega) (by omega), harith, ih g rest (by omega),
        Char.ofNat_toNat]
      rfl
    · have hlc : (escChar c).length = 1 := by
        simp [escChar, hq, hb, hn, hr, ht, h8c, h12c, h20, h7F]
      obtain ⟨g, rfl⟩ : ∃ g, f = g + 1 := ⟨f - 1, by omega⟩
      rw [List.cons_append, List.nil_append, parseStrAux_cons, if_neg hq, if_neg hb,
        if_neg h20, ih g rest (by omega)]
      rfl
    · have hlc : (escChar c).length = 6 := by
        simp [escChar, hq, hb, hn, hr, ht, h8c, h12c, h20, h7F, h10000, uEsc]
      obtain ⟨g, rfl⟩ : ∃ g, f = g + 2 := ⟨f - 2, by omega⟩
      simp only [uEsc, List.cons_append, List.nil_append]
      have h1 : c.toNat / 4096 % 16 < 16 := Nat.mod_lt _ (by norm_num)
      have h2 : c.toNat / 256 % 16 < 16 := Nat.mod_lt _ (by norm_num)
      have h3 : c.toNat / 16 % 16 < 16 := Nat.mod_lt _ (by norm_num)
      have h4 : c.toNat % 16 < 16 := Nat.mod_lt _ (by norm_num)
      have hns : ¬(0xD800 ≤ c.toNat ∧ c.toNat < 0xE000) := by
        rcases char_valid_toNat c with h | h <;> omega
      have harith : 4096 * (c.toNat / 4096 % 16) + 256 * (c.toNat / 256 % 16) +
          16 * (c.toNat / 16 % 16) + c.toNat % 16 = c.toNat := by omega
      rw [parseStrAux_u_step g _ _ _ _ _ _ _ _ _ (hexVal_hexDigitChar h1)
        (hexVal_hexDigitChar h2) (hexVal_hexDigitChar h3) (hexVal_hexDigitChar h4)
        (by omega) (by omega), harith, ih g rest (by omega),
        Char.ofNat_toNat]
      rfl
    · have hlc : (escChar c).length = 12 := by
        simp [escChar, hq, hb, hn, hr, ht, h8c, h12c, h20, h7F, h10000, uEsc]
      obtain ⟨g, rfl⟩ : ∃ g, f = g + 2 := ⟨f - 2, by omega⟩
      simp only [uEsc, List.cons_append, List.nil_append, List.append_assoc]
      have e1 : (0xD800 + (c.toNat - 0x10000) / 0x400) / 4096 % 16 < 16 :=
        Nat.mod_lt _ (by norm_num)
      have e2 : (0xD800 + (c.toNat - 0x10000) / 0x400) / 256 % 16 < 16 :=
        Nat.mod_lt _ (by norm_num)
      have e3 : (0xD800 + (c.toNat - 0x10000) / 0x400) / 16 % 16 < 16 :=
        Nat.mod_lt _ (by norm_num)
      have e4 : (0xD800 + (c.toNat - 0x10000) / 0x400) % 16 < 16 :=
        Nat.mod_lt _ (by norm_num)
      have f1 : (0xDC00 + (c.toNat - 0x10000) % 0x400) / 4096 % 16 < 16 :=
        Nat.mod_lt _ (by norm_num)
      have f2 : (0xDC00 + (c.toNat - 0x10000) % 0x400) / 256 % 16 < 16 :=
        Nat.mod_lt _ (by norm_num)
      have f3 : (0xDC00 + (c.toNat - 0x10000) % 0x400) / 16 % 16 < 16 :=
        Nat.mod_lt _ (by norm_num)
      have f4 : (0xDC00 + (c.toNat - 0x10000) % 0x400) % 16 < 16 :=
        Nat.mod_lt _ (by norm_num)
      have hval : c.toNat < 0x110000 := by
        rcases char_valid_toNat c with h | h <;> omega
      have hcomb : 0x10000 + 0x400 * (4096 * ((0xD800 + (c.toNat - 0x10000) / 0x400) / 4096 % 16) +
          256 * ((0xD800 + (c.toNat - 0x10000) / 0x400) / 256 % 16) +
          16 * ((0xD800 + (c.toNat - 0x10000) / 0x400) / 16 % 16) +
          (0xD800 + (c.toNat - 0x10000) / 0x400) % 16 - 0xD800) +
          (4096 * ((0xDC00 + (c.toNat - 0x10000) % 0x400) / 4096 % 16) +
          256 * ((0xDC00 + (c.toNat - 0x10000) % 0x400) / 256 % 16) +
          16 * ((0xDC00 + (c.toNat - 0x10000) % 0x400) / 16 % 16) +
          (0xDC00 + (c.toNat - 0x10000) % 0x400) % 16 - 0xDC00) = c.toNat := by omega
      rw [parseStrAux_u_pair g _ _ _ _ _ _ _ _ _ _ _ _ _ _ _ _ _
        (hexVal_hexDigitChar e1) (hexVal_hexDigitChar e2)
        (hexVal_hexDigitChar e3) (hexVal_hexDigitChar e4)
        (hexVal_hexDigitChar f1) (hexVal_hexDigitChar f2)
        (hexVal_hexDigitChar f3) (hexVal_hexDigitChar f4)
        (by omega) (by omega), hcomb, ih g rest (by omega),
        Char.ofNat_toNat]
      rfl

theorem parseStringBody_escStr (s rest : List Char) :
    parseStringBody (escStr s ++ '"' :: rest) = some (s, rest) := by
  rw [parseStringBody]
  exact parseStrAux_escStr s _ rest (by simp [List.length_append]; omega)

/-! Printer shape lemmas. -/

theorem dumpsItems_cons (x : Json) (xs : List Json) (d : Nat) :
    dumpsItems (x :: xs) d = spaces d ++ (dumpsVal x d ++ itemsRest xs d) := by
  cases xs <;> simp [dumpsItems, itemsRest]

theorem dumpsMembers_cons (k : List Char) (v : Json) (kvs : List (List Char × Json))
    (d : Nat) :
    dumpsMembers ((k, v) :: kvs) d =
      spaces d ++ (dumpStr k ++ ':' :: ' ' :: (dumpsVal v d ++ membersRest kvs d)) := by
  cases kvs <;> simp [dumpsMembers, membersRest]

theorem dumpsVal_head (v : Json) (d : Nat) :
    ∃ c t, dumpsVal v d = c :: t ∧ isJsonWs c = false ∧ c ≠ ']' ∧ c ≠ '}' := by
  cases v with
  | null => exact ⟨'n', ['u', 'l', 'l'], by simp [dumpsVal], by decide, by decide, by decide⟩
  | bool b =>
    cases b
    · exact ⟨'f', ['a', 'l', 's', 'e'], by simp [dumpsVal], by decide, by decide, by decide⟩
    · exact ⟨'t', ['r', 'u', 'e'], by simp [dumpsVal], by decide, by decide, by decide⟩
  | num n =>
    by_cases hn : n < 0
    · exact ⟨'-', natChars n.natAbs, by simp [dumpsVal, intChars, hn], by decide,
        by decide, by decide⟩
    · obtain ⟨c, t, heq, hd⟩ := natChars_head_digit n.natAbs
      exact ⟨c, t, by simp [dumpsVal, intChars, hn, heq], digit_not_ws hd,
        digit_ne hd (by decide), digit_ne hd (by decide)⟩
  | str s =>
    exact ⟨'"', escStr s ++ ['"'], by simp [dumpsVal, dumpStr], by decide, by decide,
      by decide⟩
  | arr xs =>
    cases xs with
    | nil => exact ⟨'[', [']'], by simp [dumpsVal], by decide, by decide, by decide⟩
    | cons x xs' =>
      exact ⟨'[', '\n' :: (dumpsItems (x :: xs') (d + 2) ++ '\n' :: (spaces d ++ [']'])),
        by simp [dumpsVal], by decide, by decide, by decide⟩
  | obj kvs =>
    cases kvs with
    | nil => exact ⟨'{', ['}'], by simp [dumpsVal], by decide, by decide, by decide⟩
    | cons kv kvs' =>
      exact ⟨'{', '\n' :: (dumpsMembers (kv :: kvs') (d + 2) ++ '\n' :: (spaces d ++ ['}'])),
        by simp [dumpsVal], by decide, by decide, by decide⟩

theorem dumpsVal_length_pos (v : Json) (d : Nat) : 1 ≤ (dumpsVal v d).length := by
  obtain ⟨c, t, heq, -, -, -⟩ := dumpsVal_head v d
  simp [heq]

theorem allWs_spaces (d : Nat) : allWs (spaces d) = true := by
  simp only [allWs, spaces, List.all_eq_true]
  intro c hc
  rw [List.eq_of_mem_replicate hc]
  decide

theorem allWs_nl_spaces (d : Nat) : allWs ('\n' :: spaces d) = true := by
  simp only [allWs, List.all_cons, Bool.and_eq_true]
  exact ⟨by decide, allWs_spaces d⟩

theorem numDelim_head_ws {c : Char} (h : isJsonWs c = true) (t : List Char) :
    numDelim (c :: t) = true := by
  simp only [isJsonWs, Bool.or_eq_true, beq_iff_eq] at h
  rcases h with ((h | h) | h) | h <;> subst h <;> rfl

theorem numDelim_close (ws2 : List Char) (hws2 : allWs ws2 = true) {b : Char}
    (hb : b = ']' ∨ b = '}') (t : List Char) : numDelim (ws2 ++ b :: t) = true := by
  cases ws2 with
  | nil => rcases hb with rfl | rfl <;> rfl
  | cons w ws' =>
    have hw : isJsonWs w = true := by
      simp only [allWs, List.all_cons, Bool.and_eq_true] at hws2
      exact hws2.1
    exact numDelim_head_ws hw _

theorem numDelim_itemsRest (xs : List Json) (d : Nat) (ws2 rest : List Char)
    (hws2 : allWs ws2 = true) :
    numDelim (itemsRest xs d ++ (ws2 ++ ']' :: rest)) = true := by
  cases xs with
  | nil => simpa [itemsRest] using numDelim_close ws2 hws2 (Or.inl rfl) rest
  | cons y ys => rfl

theorem numDelim_membersRest (kvs : List (List Char × Json)) (d : Nat)
    (ws2 rest : List Char) (hws2 : allWs ws2 = true) :
    numDelim (membersRest kvs d ++ (ws2 ++ '}' :: rest)) = true := by
  cases kvs with
  | nil => simpa [membersRest] using numDelim_close ws2 hws2 (Or.inr rfl) rest
  | cons kv kvs' => rfl

theorem skipWs_colon (x : List Char) : skipWs (':' :: x) = ':' :: x :=
  skipWs_cons_of_not_ws x (by decide)

theorem skipWs_comma (x : List Char) : skipWs (',' :: x) = ',' :: x :=
  skipWs_cons_of_not_ws x (by decide)

theorem parse_dumps : ∀ fuel : Nat,
    (∀ v d ws rest, allWs ws = true → numDelim rest = true →
      (dumpsVal v d).length ≤ fuel →
      parseVal fuel (ws ++ (dumpsVal v d ++ rest)) = some (v, rest)) ∧
    (∀ x xs d ws1 ws2 rest, allWs ws1 = true → allWs ws2 = true →
      (dumpsVal x d).length + (itemsRest xs d).length + 1 ≤ fuel →
      parseItems fuel (ws1 ++ (dumpsVal x d ++ (itemsRest xs d ++ (ws2 ++ ']' :: rest)))) =
        some (x :: xs, rest)) ∧
    (∀ k v kvs d ws1 ws2 rest, allWs ws1 = true → allWs ws2 = true →
      (dumpStr k).length + (dumpsVal v d).length + (membersRest kvs d).length + 1 ≤ fuel →
      parseMembers fuel (ws1 ++ (dumpStr k ++ ':' :: ' ' ::
          (dumpsVal v d ++ (membersRest kvs d ++ (ws2 ++ '}' :: rest))))) =
        some ((k, v) :: kvs, rest)) := by
  intro fuel
  induction fuel using Nat.strong_induction_on with
  | _ fuel IH =>
  cases fuel with
  | zero =>
    refine ⟨fun v d ws rest _ _ hlen =>
        absurd hlen (by have := dumpsVal_length_pos v d; omega),
      fun x xs d ws1 ws2 rest _ _ hlen => absurd hlen (by omega),
      fun k v kvs d ws1 ws2 rest _ _ hlen => absurd hlen (by omega)⟩
  | succ f =>
  obtain ⟨IHP, IHQ, IHR⟩ := IH f (Nat.lt_succ_self f)
  refine ⟨?_, ?_, ?_⟩
  · -- values
    intro v d ws rest hws hnd hlen
    cases v with
    | null =>
      have hskip : skipWs (ws ++ (dumpsVal Json.null d ++ rest)) =
          'n' :: ('u' :: 'l' :: 'l' :: rest) := by
        rw [skipWs_append_of_allWs _ hws]
        simp only [dumpsVal, List.cons_append, List.nil_append]
        exact skipWs_cons_of_not_ws _ (by decide)
      simp only [parseVal, hskip]
      simp [List.isPrefixOf]
    | bool b =>
      cases b with
      | false =>
        have hskip : skipWs (ws ++ (dumpsVal (Json.bool false) d ++ rest)) =
            'f' :: ('a' :: 'l' :: 's' :: 'e' :: rest) := by
          rw [skipWs_append_of_allWs _ hws]
          simp only [dumpsVal, List.cons_append, List.nil_append]
          exact skipWs_cons_of_not_ws _ (by decide)
        simp only [parseVal, hskip]
        simp [List.isPrefixOf]
      | true =>
        have hskip : skipWs (ws ++ (dumpsVal (Json.bool true) d ++ rest)) =
            't' :: ('r' :: 'u' :: 'e' :: rest) := by
          rw [skipWs_append_of_allWs _ hws]
          simp only [dumpsVal, List.cons_append, List.nil_append]
          exact skipWs_cons_of_not_ws _ (by decide)
        simp only [parseVal, hskip]
        simp [List.isPrefixOf]
    | num n =>
      by_cases hn : n < 0
      · have hform : dumpsVal (Json.num n) d ++ rest =
            '-' :: (natChars n.natAbs ++ rest) := by
          simp [dumpsVal, intChars, hn]
        have hskip : skipWs (ws ++ (dumpsVal (Json.num n) d ++ rest)) =
            '-' :: (natChars n.natAbs ++ rest) := by
          rw [skipWs_append_of_allWs _ hws, hform]
          exact skipWs_cons_of_not_ws _ (by decide)
        simp only [parseVal, hskip]
        have hback : '-' :: (natChars n.natAbs ++ rest) = intChars n ++ rest := by
          simp [intChars, hn]
        simp only [hback, parseNum_intChars n rest hnd]
        simp
      · obtain ⟨c, t, heq, hd⟩ := natChars_head_digit n.natAbs
        have hform : dumpsVal (Json.num n) d ++ rest = c :: (t ++ rest) := by
          simp [dumpsVal, intChars, hn, heq]
        have hskip : skipWs (ws ++ (dumpsVal (Json.num n) d ++ rest)) =
            c :: (t ++ rest) := by
          rw [skipWs_append_of_allWs _ hws, hform]
          exact skipWs_cons_of_not_ws _ (digit_not_ws hd)
        simp only [parseVal, hskip]
        rw [if_neg (digit_ne hd (by decide)), if_neg (digit_ne hd (by decide)),
          if_neg (digit_ne hd (by decide)), if_neg (digit_ne hd (by decide)),
          if_neg (digit_ne hd (by decide)), if_neg (digit_ne hd (by decide)),
          if_pos (Or.inr hd)]
        have hback : c :: (t ++ rest) = intChars n ++ rest := by
          simp [intChars, hn, heq]
        rw [hback, parseNum_intChars n rest hnd]
    | str s =>
      have hskip : skipWs (ws ++ (dumpsVal (Json.str s) d ++ rest)) =
          '"' :: (escStr s ++ ('"' :: rest)) := by
        rw [skipWs_append_of_allWs _ hws]
        simp only [dumpsVal, dumpStr, List.cons_append, List.append_assoc,
          List.singleton_append]
        exact skipWs_cons_of_not_ws _ (by decide)
      simp only [parseVal, hskip]
      simp [parseStringBody_escStr]
    | arr xs =>
      cases xs with
      | nil =>
        have hskip : skipWs (ws ++ (dumpsVal (Json.arr []) d ++ rest)) =
            '[' :: (']' :: rest) := by
          rw [skipWs_append_of_allWs _ hws]
          simp only [dumpsVal, List.cons_append, List.nil_append]
          exact skipWs_cons_of_not_ws _ (by decide)
        simp only [parseVal, hskip]
        rw [skipWs_cons_of_not_ws _ (by decide)]
        simp
      | cons x xs' =>
        obtain ⟨c, t, hX, hcws, hcne, -⟩ := dumpsVal_head x (d + 2)
        have hform : dumpsVal (Json.arr (x :: xs')) d ++ rest =
            '[' :: ('\n' :: (spaces (d + 2) ++ (dumpsVal x (d + 2) ++
              (itemsRest xs' (d + 2) ++ (('\n' :: spaces d) ++ (']' :: rest)))))) := by
          simp [dumpsVal, dumpsItems_cons, List.append_assoc]
        have hskip : skipWs (ws ++ (dumpsVal (Json.arr (x :: xs')) d ++ rest)) =
            '[' :: ('\n' :: (spaces (d + 2) ++ (dumpsVal x (d + 2) ++
              (itemsRest xs' (d + 2) ++ (('\n' :: spaces d) ++ (']' :: rest)))))) := by
          rw [skipWs_append_of_allWs _ hws, hform]
          exact skipWs_cons_of_not_ws _ (by decide)
        simp only [parseVal, hskip]
        simp only [reduceIte]
        have hskip2 : skipWs ('\n' :: (spaces (d + 2) ++ (dumpsVal x (d + 2) ++
            (itemsRest xs' (d + 2) ++ (('\n' :: spaces d) ++ (']' :: rest)))))) =
            dumpsVal x (d + 2) ++
              (itemsRest xs' (d + 2) ++ (('\n' :: spaces d) ++ (']' :: rest))) := by
          rw [show ('\n' :: (spaces (d + 2) ++ (dumpsVal x (d + 2) ++
              (itemsRest xs' (d + 2) ++ (('\n' :: spaces d) ++ (']' :: rest)))))) =
              ('\n' :: spaces (d + 2)) ++ (dumpsVal x (d + 2) ++
              (itemsRest xs' (d + 2) ++ (('\n' :: spaces d) ++ (']' :: rest)))) from rfl]
          rw [skipWs_append_of_allWs _ (allWs_nl_spaces _), hX, List.cons_append,
            skipWs_cons_of_not_ws _ hcws, ← List.cons_append, ← hX]
        rw [hskip2]
        have hhead : (dumpsVal x (d + 2) ++
            (itemsRest xs' (d + 2) ++ (('\n' :: spaces d) ++ (']' :: rest)))).head? =
            some c := by
          rw [hX]
          rfl
        rw [if_neg (fun hcontra => hcne (Option.some.inj (hhead.symm.trans hcontra)))]
        have hL : (dumpsVal (Json.arr (x :: xs')) d).length =
            (dumpsVal x (d + 2)).length + (itemsRest xs' (d + 2)).length + 2 * d + 6 := by
          simp [dumpsVal, dumpsItems_cons, spaces]
          ring
        have hq := IHQ x xs' (d + 2) [] ('\n' :: spaces d) rest rfl (allWs_nl_spaces d)
          (by omega)
        simp only [List.nil_append] at hq
        rw [hq]
        rfl
    | obj kvs =>
      cases kvs with
      | nil =>
        have hskip : skipWs (ws ++ (dumpsVal (Json.obj []) d ++ rest)) =
            '{' :: ('}' :: rest) := by
          rw [skipWs_append_of_allWs _ hws]
          simp only [dumpsVal, List.cons_append, List.nil_append]
          exact skipWs_cons_of_not_ws _ (by decide)
        simp only [parseVal, hskip]
        rw [skipWs_cons_of_not_ws _ (by decide)]
        simp
      | cons kv kvs' =>
        obtain ⟨k2, v2⟩ := kv
        have hform : dumpsVal (Json.obj ((k2, v2) :: kvs')) d ++ rest =
            '{' :: ('\n' :: (spaces (d + 2) ++ (dumpStr k2 ++ ':' :: ' ' ::
              (dumpsVal v2 (d + 2) ++ (membersRest kvs' (d + 2) ++
                (('\n' :: spaces d) ++ ('}' :: rest))))))) := by
          simp [dumpsVal, dumpsMembers_cons, List.append_assoc]
        have hskip : skipWs (ws ++ (dumpsVal (Json.obj ((k2, v2) :: kvs')) d ++ rest)) =
            '{' :: ('\n' :: (spaces (d + 2) ++ (dumpStr k2 ++ ':' :: ' ' ::
              (dumpsVal v2 (d + 2) ++ (membersRest kvs' (d + 2) ++
                (('\n' :: spaces d) ++ ('}' :: rest))))))) := by
          rw [skipWs_append_of_allWs _ hws, hform]
          exact skipWs_cons_of_not_ws _ (by decide)
        simp only [parseVal, hskip]
        simp only [reduceIte]
        have hskip2 : skipWs ('\n' :: (spaces (d + 2) ++ (dumpStr k2 ++ ':' :: ' ' ::
            (dumpsVal v2 (d + 2) ++ (membersRest kvs' (d + 2) ++
              (('\n' :: spaces d) ++ ('}' :: rest))))))) =
            dumpStr k2 ++ ':' :: ' ' :: (dumpsVal v2 (d + 2) ++
              (membersRest kvs' (d + 2) ++ (('\n' :: spaces d) ++ ('}' :: rest)))) := by
          rw [show ('\n' :: (spaces (d + 2) ++ (dumpStr k2 ++ ':' :: ' ' ::
              (dumpsVal v2 (d + 2) ++ (membersRest kvs' (d + 2) ++
                (('\n' :: spaces d) ++ ('}' :: rest))))))) =
              ('\n' :: spaces (d + 2)) ++ (dumpStr k2 ++ ':' :: ' ' ::
              (dumpsVal v2 (d + 2) ++ (membersRest kvs' (d + 2) ++
                (('\n' :: spaces d) ++ ('}' :: rest))))) from rfl]
          rw [skipWs_append_of_allWs _ (allWs_nl_spaces _)]
          simp only [dumpStr, List.cons_append]
          rw [skipWs_cons_of_not_ws _ (by decide)]
        rw [hskip2]
        have hhead : (dumpStr k2 ++ ':' :: ' ' :: (dumpsVal v2 (d + 2) ++
            (membersRest kvs' (d + 2) ++ (('\n' :: spaces d) ++ ('}' :: rest))))).head? =
            some '"' := by
          simp [dumpStr]
        rw [if_neg (fun hcontra => by simpa [hhead] using hcontra)]
        have hL : (dumpsVal (Json.obj ((k2, v2) :: kvs')) d).length =
            (dumpStr k2).length + (dumpsVal v2 (d + 2)).length +
              (membersRest kvs' (d + 2)).length + 2 * d + 8 := by
          simp [dumpsVal, dumpsMembers_cons, spaces]
          ring
        have hr := IHR k2 v2 kvs' (d + 2) [] ('\n' :: spaces d) rest rfl
          (allWs_nl_spaces d) (by omega)
        simp only [List.nil_append] at hr
        rw [hr]
        rfl
  · -- array items
    intro x xs d ws1 ws2 rest hws1 hws2 hlen
    have hx1 := dumpsVal_length_pos x d
    have hndR : numDelim (itemsRest xs d ++ (ws2 ++ ']' :: rest)) = true :=
      numDelim_itemsRest xs d ws2 rest hws2
    have hval := IHP x d ws1 (itemsRest xs d ++ (ws2 ++ ']' :: rest)) hws1 hndR (by omega)
    simp only [parseItems, hval]
    cases xs with
    | nil =>
      have hskip : skipWs (itemsRest ([] : List Json) d ++ (ws2 ++ ']' :: rest)) =
          ']' :: rest := by
        simp only [itemsRest, List.nil_append]
        rw [skipWs_append_of_allWs _ hws2]
        exact skipWs_cons_of_not_ws _ (by decide)
      simp only [hskip]
    | cons y ys =>
      have hy1 := dumpsVal_length_pos y d
      have hskip : skipWs (itemsRest (y :: ys) d ++ (ws2 ++ ']' :: rest)) =
          ',' :: ('\n' :: (dumpsItems (y :: ys) d ++ (ws2 ++ ']' :: rest))) := by
        simp only [itemsRest, List.cons_append]
        exact skipWs_cons_of_not_ws _ (by decide)
      simp only [hskip]
      have hr2 : ('\n' : Char) :: (dumpsItems (y :: ys) d ++ (ws2 ++ ']' :: rest)) =
          ('\n' :: spaces d) ++ (dumpsVal y d ++ (itemsRest ys d ++ (ws2 ++ ']' :: rest))) := by
        simp [dumpsItems_cons, List.append_assoc]
      rw [hr2]
      have hlen2 : (itemsRest (y :: ys) d).length =
          2 + (d + ((dumpsVal y d).length + (itemsRest ys d).length)) := by
        show (',' :: '\n' :: dumpsItems (y :: ys) d).length = _
        rw [dumpsItems_cons]
        simp [spaces]
        omega
      rw [IHQ y ys d ('\n' :: spaces d) ws2 rest (allWs_nl_spaces d) hws2 (by omega)]
      rfl
  · -- object members
    intro k v kvs d ws1 ws2 rest hws1 hws2 hlen
    have hv1 := dumpsVal_length_pos v d
    have hk2 : (dumpStr k).length = (escStr k).length + 2 := by
      simp [dumpStr]
    simp only [parseMembers]
    have hskip : skipWs (ws1 ++ (dumpStr k ++ ':' :: ' ' ::
        (dumpsVal v d ++ (membersRest kvs d ++ (ws2 ++ '}' :: rest))))) =
        '"' :: (escStr k ++ ('"' :: (':' :: ' ' ::
          (dumpsVal v d ++ (membersRest kvs d ++ (ws2 ++ '}' :: rest)))))) := by
      rw [skipWs_append_of_allWs _ hws1]
      simp only [dumpStr, List.cons_append, List.append_assoc, List.singleton_append]
      exact skipWs_cons_of_not_ws _ (by decide)
    simp only [hskip, parseStringBody_escStr, skipWs_colon]
    have hval := IHP v d [' ']
      (membersRest kvs d ++ (ws2 ++ '}' :: rest)) (by decide)
      (numDelim_membersRest kvs d ws2 rest hws2) (by omega)
    simp only [List.singleton_append] at hval
    simp only [hval]
    cases kvs with
    | nil =>
      have hskip2 : skipWs (membersRest ([] : List (List Char × Json)) d ++
          (ws2 ++ '}' :: rest)) = '}' :: rest := by
        simp only [membersRest, List.nil_append]
        rw [skipWs_append_of_allWs _ hws2]
        exact skipWs_cons_of_not_ws _ (by decide)
      simp only [hskip2]
    | cons kv2 kvs' =>
      obtain ⟨k2, v2⟩ := kv2
      have hv2 := dumpsVal_length_pos v2 d
      have hk22 : (dumpStr k2).length = (escStr k2).length + 2 := by
        simp [dumpStr]
      have hskip2 : skipWs (membersRest ((k2, v2) :: kvs') d ++ (ws2 ++ '}' :: rest)) =
          ',' :: ('\n' :: (dumpsMembers ((k2, v2) :: kvs') d ++ (ws2 ++ '}' :: rest))) := by
        simp only [membersRest, List.cons_append]
        exact skipWs_cons_of_not_ws _ (by decide)
      simp only [hskip2]
      have hr5 : ('\n' : Char) :: (dumpsMembers ((k2, v2) :: kvs') d ++ (ws2 ++ '}' :: rest)) =
          ('\n' :: spaces d) ++ (dumpStr k2 ++ ':' :: ' ' ::
            (dumpsVal v2 d ++ (membersRest kvs' d ++ (ws2 ++ '}' :: rest)))) := by
        simp [dumpsMembers_cons, List.append_assoc]
      rw [hr5]
      have hlen2 : (membersRest ((k2, v2) :: kvs') d).length =
          2 + (d + ((dumpStr k2).length + (2 + ((dumpsVal v2 d).length +
            (membersRest kvs' d).length)))) := by
        simp [membersRest, dumpsMembers_cons, spaces]
        ring
      rw [IHR k2 v2 kvs' d ('\n' :: spaces d) ws2 rest (allWs_nl_spaces d) hws2 (by omega)]
      rfl

/-- The parse of the generic serialization recovers the value: Python
`json.loads(json.dumps(data, indent=2)) == data` on the modelled fragment. -/
theorem pyJsonLoads_jsonDumps (v : Json) : pyJsonLoads (jsonDumps v) = some v := by
  have h := (parse_dumps ((jsonDumps v).length + 1)).1 v 0 [] [] rfl rfl (Nat.le_succ _)
  simp only [List.nil_append, List.append_nil, jsonDumps] at h
  simp only [pyJsonLoads, jsonDumps, h]
  simp [skipWs]

/-! Claim theorems. -/

/-- C2: `parse_structured_output` never raises (the model is a total
function into `Json`: the source catches the only exception, `json.loads`'s
`JSONDecodeError`), and whenever no JSON can be extracted — the JSON parse
of whichever slice the parser selects fails, in each of the three
slice-selection cases of the source — it returns the sentinel
`\x7b"raw": text\x7d` wrapping the whole input text. -/
theorem c2_parser_sentinel_on_failure (text : List Char) :
    (findSub text fenceJson = none → pyJsonLoads text = none →
      parse_structured_output text = .obj [("raw".toList, .str text)]) ∧
    (∀ i e, findSub text fenceJson = some i →
      findSub (text.drop (i + 7)) fence = some e →
      pyJsonLoads (pyStrip ((text.drop (i + 7)).take e)) = none →
      parse_structured_output text = .obj [("raw".toList, .str text)]) ∧
    (∀ i, findSub text fenceJson = some i →
      findSub (text.drop (i + 7)) fence = none →
      pyJsonLoads (pyStrip (text.drop (i + 7)).dropLast) = none →
      parse_structured_output text = .obj [("raw".toList, .str text)]) := by
  refine ⟨?_, ?_, ?_⟩
  · intro hf hl
    rw [parse_structured_output, hf]
    simp [hl]
  · intro i e hf he hl
    rw [parse_structured_output, hf]
    simp [he, hl]
  · intro i hf he hl
    rw [parse_structured_output, hf]
    simp [he, hl]

/-- C2 witness: on `"not json at all"` (no fence, and the whole text is not
JSON) the parser returns the sentinel wrapping that text. -/
theorem c2_witness :
    parse_structured_output "not json at all".toList =
      .obj [("raw".toList, .str "not json at all".toList)] :=
  (c2_parser_sentinel_on_failure "not json at all".toList).1 (by rfl) (by rfl)

/-- C3: when the input contains a `json`-labelled fence, the parser parses
exactly the whitespace-stripped slice between the marker and the next
closing fence, ignoring everything after the closing fence: the result is
the JSON parse of the slice alone (with the sentinel on the whole text when
that parse fails).  The two hypotheses say that the fence markers found by
`find` are the displayed ones (no earlier occurrence). -/
theorem c3_fenced_slice_only (pre mid post : List Char)
    (hpre : ∀ k < pre.length, ¬ (fenceJson <+: (pre ++ fenceJson).drop k))
    (hmid : ∀ k < mid.length, ¬ (fence <+: (mid ++ fence).drop k)) :
    parse_structured_output (pre ++ (fenceJson ++ (mid ++ (fence ++ post)))) =
      match pyJsonLoads (pyStrip mid) with
      | some v => v
      | none => .obj [("raw".toList,
          .str (pre ++ (fenceJson ++ (mid ++ (fence ++ post)))))] := by
  have hfind1 : findSub (pre ++ (fenceJson ++ (mid ++ (fence ++ post)))) fenceJson =
      some pre.length := findSub_first pre fenceJson (mid ++ (fence ++ post)) hpre
  have hdrop : (pre ++ (fenceJson ++ (mid ++ (fence ++ post)))).drop (pre.length + 7) =
      mid ++ (fence ++ post) := by
    rw [show pre.length + 7 = (pre ++ fenceJson).length from by simp [fenceJson]]
    rw [← List.append_assoc]
    exact List.drop_left _ _
  have hfind2 : findSub (mid ++ (fence ++ post)) fence = some mid.length :=
    findSub_first mid fence post hmid
  have htake : (mid ++ (fence ++ post)).take mid.length = mid := List.take_left _ _
  rw [parse_structured_output]
  simp only [hfind1, hdrop, hfind2, htake]

/-- C3 witness: a fence followed by trailing garbage still parses to the
fenced object. -/
theorem c3_witness :
    parse_structured_output ("bla ".toList ++ (fenceJson ++
        (" \x7b\"a\": 1\x7d ".toList ++ (fence ++ " trailing garbage".toList)))) =
      Json.obj [("a".toList, Json.num 1)] := by
  rw [c3_fenced_slice_only "bla ".toList " \x7b\"a\": 1\x7d ".toList
    " trailing garbage".toList (by decide) (by decide)]
  rfl

/-- C5: on the math input with answer 4 and reasoning 2+2, the renderer
emits exactly the badge, then Analysis, then Solution, and none of the
coding-only sections occur in the output. -/
theorem c5_math_rendering :
    format_solution_markdown
      (.obj [("solution".toList, .obj [("answer".toList, .str "4".toList),
        ("reasoning".toList, .str "2+2".toList)])])
      (.obj [("problem_type".toList, .str "math".toList)]) =
      some "**Type:** `MATH`\n\n### Analysis\n2+2\n\n### Solution\n4".toList ∧
    findSub "**Type:** `MATH`\n\n### Analysis\n2+2\n\n### Solution\n4".toList
        "### Algorithm Steps".toList = none ∧
    findSub "**Type:** `MATH`\n\n### Analysis\n2+2\n\n### Solution\n4".toList
        "### Edge Cases".toList = none ∧
    findSub "**Type:** `MATH`\n\n### Analysis\n2+2\n\n### Solution\n4".toList
        "### Code Section".toList = none ∧
    findSub "**Type:** `MATH`\n\n### Analysis\n2+2\n\n### Solution\n4".toList
        "### Complexity".toList = none := by
  decide

/-- C7: `encode_toon` falls back to `json.dumps(data, indent=2)` whenever the
package is unavailable or its encoder raises, and never raises itself; and
`decode_toon` applied to that fallback output (with the package likewise
unavailable) recovers the original value. -/
theorem c7_encode_fallback_roundtrip (T : ToonLib) (data : Json)
    (henc : T.enc = none ∨ ∃ f e, T.enc = some f ∧ f data = .error e)
    (hdec : T.dec = none) :
    encode_toon T data = jsonDumps data ∧
    decode_toon T (encode_toon T data) = .ok (some data) := by
  have henc' : encode_toon T data = jsonDumps data := by
    rcases henc with h | ⟨f, e, hf, he⟩
    · simp [encode_toon, h]
    · simp [encode_toon, hf, he]
  refine ⟨henc', ?_⟩
  rw [henc']
  simp only [decode_toon, hdec, pyJsonLoads_jsonDumps]

/-- C7 witness at a concrete value with the package absent. -/
theorem c7_witness :
    encode_toon noToon (Json.obj [("a".toList, Json.num 1)]) =
      jsonDumps (Json.obj [("a".toList, Json.num 1)]) ∧
    decode_toon noToon (encode_toon noToon (Json.obj [("a".toList, Json.num 1)])) =
      .ok (some (Json.obj [("a".toList, Json.num 1)])) :=
  c7_encode_fallback_roundtrip noToon (Json.obj [("a".toList, Json.num 1)])
    (Or.inl rfl) rfl

/-- C8 counterexample: with the `toon_format` package absent,
`decode_toon "not json at all"` raises a `JSONDecodeError` (modelled by
`Except.error`) instead of never raising. -/
theorem c8_counterexample :
    decode_toon noToon "not json at all".toList =
      .error "JSONDecodeError".toList := by
  rfl

/-- C8 amended: `decode_toon` does not mirror `encode_toon`'s fallback
policy.  With the package absent it falls back to the generic JSON parse
but propagates that parse's failure as an exception; and when the package
decoder itself raises, it returns `None` rather than the generic parse. -/
theorem c8_decode_actual_behaviour (T : ToonLib) (s : List Char) :
    (∀ v, T.dec = none → pyJsonLoads s = some v → decode_toon T s = .ok (some v)) ∧
    (T.dec = none → pyJsonLoads s = none →
      decode_toon T s = .error "JSONDecodeError".toList) ∧
    (∀ f e, T.dec = some f → f s = .error e → decode_toon T s = .ok none) ∧
    (∀ f v, T.dec = some f → f s = .ok v → decode_toon T s = .ok (some v)) := by
  refine ⟨?_, ?_, ?_, ?_⟩
  · intro v h hl
    simp [decode_toon, h, hl]
  · intro h hl
    simp [decode_toon, h, hl]
  · intro f e h hf
    simp [decode_toon, h, hf]
  · intro f v h hf
    simp [decode_toon, h, hf]

/-- C8 witness: the parse-success branch of the amended behaviour at a
concrete input. -/
theorem c8_witness :
    decode_toon noToon "[1]".toList = .ok (some (Json.arr [Json.num 1])) :=
  (c8_decode_actual_behaviour noToon "[1]".toList).1 (Json.arr [Json.num 1]) rfl
    (by decide)

/-- C1 counterexample: a Stage-1 answer whose `problem_type` lies outside
the four-way enum does not trigger the fallback.  With `weirdBackend` the
classification is `\x7b"problem_type": "weird"\x7d`, yet the pipeline entry
point returns a rendered result that differs from the plain call and still
carries `problem_info` metadata. -/
theorem c1_counterexample :
    jsonGet (step_classify_and_extract weirdBackend "t".toList [0]) "problem_type".toList =
      some (.str "weird".toList) ∧
    ("weird".toList ∉ ["coding".toList, "multiple_choice".toList, "math".toList,
      "general".toList]) ∧
    smart_send_message weirdBackend noToon "m".toList "t".toList [0] none none ≠
      gemini_send_message weirdBackend "m".toList "t".toList [0] none none ∧
    (jsonGet (smart_send_message weirdBackend noToon "m".toList "t".toList [0] none none)
        "metadata".toList).map (fun md => jsonHasKey md "problem_info".toList) =
      some true := by
  refine ⟨by decide, by decide, by decide, by decide⟩

/-- C1 amended: the fallback to a single plain call fires exactly when
Stage 2 raises or the renderer raises — not on an out-of-enum
`problem_type` (see the counterexample), and a Stage-1 backend exception is
already swallowed inside `send_with_json_output`, so it does not trigger
the fallback either.  When the fallback fires, the result equals the plain
call and carries no `problem_info`/`raw_solution` metadata. -/
theorem c1_amended_fallback (B : GeminiBackend) (T : ToonLib)
    (model text : List Char) (images : List Nat)
    (aud sys : Option (List Char)) (himg : images ≠ []) :
    (∀ e, step_generate_solution B T (step_classify_and_extract B text images) = .error e →
      smart_send_message B T model text images aud sys =
        gemini_send_message B model text images aud sys) ∧
    (∀ sd, step_generate_solution B T (step_classify_and_extract B text images) = .ok sd →
      format_solution_markdown sd (step_classify_and_extract B text images) = none →
      smart_send_message B T model text images aud sys =
        gemini_send_message B model text images aud sys) := by
  constructor
  · intro e he
    rw [smart_send_message, if_neg (by simpa using himg)]
    simp only [he]
  · intro sd hsd hfmt
    rw [smart_send_message, if_neg (by simpa using himg)]
    simp only [hsd, hfmt]

/-- C1 witness: with a backend answering a JSON list, Stage 2's
`problem_info.get` raises and the pipeline returns the plain call. -/
theorem c1_witness :
    step_generate_solution listBackend noToon
        (step_classify_and_extract listBackend "t".toList [0]) =
      .error "AttributeError".toList ∧
    smart_send_message listBackend noToon "m".toList "t".toList [0] none none =
      gemini_send_message listBackend "m".toList "t".toList [0] none none :=
  ⟨by rfl,
    (c1_amended_fallback listBackend noToon "m".toList "t".toList [0] none none
      (by decide)).1 "AttributeError".toList (by rfl)⟩

/-- C4: for a coding problem whose solution has all five fields non-empty,
the renderer emits the sections in the fixed order badge, Algorithm Steps,
Edge Cases, Code Section, Complexity, and wraps the code in a fence tagged
with the details language whenever the code does not already start with a
fence. -/
theorem c4_coding_sections (steps code tc sc lang : List Char)
    (ecs : List (List Char))
    (hsteps : steps ≠ []) (hcode : code ≠ []) (htc : tc ≠ []) (hsc : sc ≠ [])
    (hecs : ecs ≠ [])
    (hfence : fence.isPrefixOf (pyStrip code) = false) :
    format_solution_markdown
      (.obj [("solution".toList, .obj [
        ("algorithm_steps".toList, .str steps),
        ("code".toList, .str code),
        ("time_complexity".toList, .str tc),
        ("space_complexity".toList, .str sc),
        ("edge_cases".toList, .arr (ecs.map .str))])])
      (.obj [("problem_type".toList, .str "coding".toList),
             ("details".toList, .obj [("language".toList, .str lang)])]) =
    some ("**Type:** `CODING`\n\n".toList ++
      ("### Algorithm Steps\n".toList ++ steps ++ "\n\n".toList) ++
      ("### Edge Cases\n".toList ++
        (ecs.map (fun ec => "- ".toList ++ ec ++ ['\n'])).flatten ++ ['\n']) ++
      ("### Code Section\n".toList ++
        ("``` ".toList ++ lang ++ ['\n'] ++ code ++ "\n```".toList) ++ "\n\n".toList) ++
      ("### Complexity\n".toList ++ ("- **Time**: ".toList ++ tc ++ ['\n']) ++
        ("- **Space**: ".toList ++ sc ++ ['\n']) ++ ['\n'])) := by
  simp +decide only [format_solution_markdown, objGetD, pyGetD, List.find?, pyUpper,
    pyTruthy, pyStr, pyIter, List.map_map]
  simp only [List.isEmpty_eq_true, hsteps, hcode, htc, hsc,
    if_neg hsteps, Bool.not_false, if_pos rfl, hfence, Bool.false_eq_true,
    reduceIte, List.map_eq_nil_iff, hecs, Bool.not_eq_true']
  simp [pyStr, Function.comp_def, hsteps, hcode, htc, hsc, hecs, hfence, pyUpper]

/-- C4 witness: concrete coding fields with unfenced code. -/
theorem c4_witness :
    fence.isPrefixOf (pyStrip "print(1)".toList) = false ∧
    format_solution_markdown
      (.obj [("solution".toList, .obj [
        ("algorithm_steps".toList, .str "1. print".toList),
        ("code".toList, .str "print(1)".toList),
        ("time_complexity".toList, .str "O(1)".toList),
        ("space_complexity".toList, .str "O(1)".toList),
        ("edge_cases".toList, .arr (["none".toList].map .str))])])
      (.obj [("problem_type".toList, .str "coding".toList),
             ("details".toList, .obj [("language".toList, .str "python".toList)])]) =
    some ("**Type:** `CODING`\n\n".toList ++
      ("### Algorithm Steps\n".toList ++ "1. print".toList ++ "\n\n".toList) ++
      ("### Edge Cases\n".toList ++
        (["none".toList].map (fun ec => "- ".toList ++ ec ++ ['\n'])).flatten ++ ['\n']) ++
      ("### Code Section\n".toList ++
        ("``` ".toList ++ "python".toList ++ ['\n'] ++ "print(1)".toList ++ "\n```".toList) ++
        "\n\n".toList) ++
      ("### Complexity\n".toList ++ ("- **Time**: ".toList ++ "O(1)".toList ++ ['\n']) ++
        ("- **Space**: ".toList ++ "O(1)".toList ++ ['\n']) ++ ['\n'])) :=
  ⟨by decide,
    c4_coding_sections "1. print".toList "print(1)".toList "O(1)".toList "O(1)".toList
      "python".toList ["none".toList] (by decide) (by decide) (by decide) (by decide)
      (by decide) (by decide)⟩

/-- C6: a backend exception inside a plain `send_message` call is not
propagated: both providers return a dict whose response text is the
`"Error: "` marker followed by the message and whose metadata binds the
message under `error`. -/
theorem c6_send_error_capture (Bg : GeminiBackend) (Bc : ClaudeBackend)
    (model text : List Char) (images : List Nat)
    (aud sys : Option (List Char)) (e : List Char) :
    (Bg.generate (geminiParts text images aud sys) = .error e →
      gemini_send_message Bg model text images aud sys =
        .obj [("response".toList, .str ("Error: ".toList ++ e)),
              ("metadata".toList, .obj [("error".toList, .str e)])]) ∧
    (Bc.create (claudeContent text images aud) sys = .error e →
      claude_send_message Bc model text images aud sys =
        .obj [("response".toList, .str ("Error: ".toList ++ e)),
              ("metadata".toList, .obj [("error".toList, .str e)])]) := by
  constructor
  · intro h; rw [gemini_send_message, h]
  · intro h; rw [claude_send_message, h]

/-- C6 witness: the failing fixtures exercise both error branches. -/
theorem c6_witness :
    failingGemini.generate (geminiParts "t".toList [] none none) = .error "boom".toList ∧
    gemini_send_message failingGemini "m".toList "t".toList [] none none =
      .obj [("response".toList, .str ("Error: ".toList ++ "boom".toList)),
            ("metadata".toList, .obj [("error".toList, .str "boom".toList)])] ∧
    claude_send_message failingClaude "m".toList "t".toList [] none none =
      .obj [("response".toList, .str ("Error: ".toList ++ "boom".toList)),
            ("metadata".toList, .obj [("error".toList, .str "boom".toList)])] :=
  ⟨rfl,
    (c6_send_error_capture failingGemini failingClaude "m".toList "t".toList [] none none
      "boom".toList).1 rfl,
    (c6_send_error_capture failingGemini failingClaude "m".toList "t".toList [] none none
      "boom".toList).2 rfl⟩

/-- C9: each `stream_response` yields a finite list of chunks (the model
returns a `List`), and when the backend reports a failure the final yielded
element is the inline `"\n\nError: ..."` annotation rather than a raised
exception. -/
theorem c9_stream_error_tail (Bg : GeminiBackend) (Bc : ClaudeBackend)
    (text : List Char) (images : List Nat) (aud sys : Option (List Char))
    (chunks : List (List Char)) (e : List Char) :
    (Bg.stream (geminiParts text images aud sys) = (chunks, some e) →
      gemini_stream_response Bg text images aud sys =
        chunks.filter (fun c => !c.isEmpty) ++ ["\n\nError: ".toList ++ e] ∧
      (gemini_stream_response Bg text images aud sys).getLast? =
        some ("\n\nError: ".toList ++ e)) ∧
    (Bc.stream (images.map CBlock.img ++
        (if text.isEmpty then [] else [CBlock.txt text])) sys = (chunks, some e) →
      claude_stream_response Bc text images aud sys =
        chunks ++ ["\n\nError: ".toList ++ e] ∧
      (claude_stream_response Bc text images aud sys).getLast? =
        some ("\n\nError: ".toList ++ e)) := by
  constructor
  · intro h
    have heq : gemini_stream_response Bg text images aud sys =
        chunks.filter (fun c => !c.isEmpty) ++ ["\n\nError: ".toList ++ e] := by
      rw [gemini_stream_response, h]
    exact ⟨heq, by rw [heq, List.getLast?_concat]⟩
  · intro h
    have heq : claude_stream_response Bc text images aud sys =
        chunks ++ ["\n\nError: ".toList ++ e] := by
      rw [claude_stream_response, h]
    exact ⟨heq, by rw [heq, List.getLast?_concat]⟩

/-- C9 witness: the failing fixtures end their streams with the inline
error annotation. -/
theorem c9_witness :
    gemini_stream_response failingGemini "t".toList [] none none =
      ["a".toList].filter (fun c => !c.isEmpty) ++ ["\n\nError: ".toList ++ "boom".toList] ∧
    (claude_stream_response failingClaude "t".toList [] none none).getLast? =
      some ("\n\nError: ".toList ++ "boom".toList) :=
  ⟨((c9_stream_error_tail failingGemini failingClaude "t".toList [] none none
      ["a".toList] "boom".toList).1 rfl).1,
    ((c9_stream_error_tail failingGemini failingClaude "t".toList [] none none
      ["a".toList] "boom".toList).2 rfl).2⟩

/-- C10 counterexample: on a backend error, Claude's
`send_with_json_output` does not return a mapping with an `error` key: the
inner `send_message` already catches the exception and returns the
`"Error: ..."` text, which the parser wraps into the `\x7b"raw": ...\x7d`
sentinel instead. -/
theorem c10_counterexample :
    claude_send_with_json_output failingClaude "m".toList "t".toList (.obj []) [] =
      .obj [("raw".toList, .str "Error: boom".toList)] ∧
    jsonHasKey (claude_send_with_json_output failingClaude "m".toList "t".toList
      (.obj []) []) "error".toList = false := by
  refine ⟨by rfl, by decide⟩

/-- C10 amended: only the Gemini provider returns the
`\x7b"error": message\x7d` shape on a backend exception (and Stage 1 then
reads every field of it as a default, e.g. `problem_type` as `"general"`);
the Claude provider instead yields the sentinel wrapper around the
`"Error: ..."` text produced by its inner `send_message`. -/
theorem c10_json_error_shapes (Bg : GeminiBackend) (Bc : ClaudeBackend)
    (model text : List Char) (schema : Json) (images : List Nat) (e : List Char) :
    (Bg.generate (GPart.txt (text ++ geminiSchemaStr schema) :: images.map GPart.img) =
        .error e →
      gemini_send_with_json_output Bg text schema images =
        .obj [("error".toList, .str e)] ∧
      pyGetD (gemini_send_with_json_output Bg text schema images) "problem_type".toList
        (.str "general".toList) = some (.str "general".toList)) ∧
    (Bc.create (claudeContent (text ++ geminiSchemaStr schema) images none) none =
        .error e →
      claude_send_with_json_output Bc model text schema images =
        parse_structured_output ("Error: ".toList ++ e)) := by
  constructor
  · intro h
    have heq : gemini_send_with_json_output Bg text schema images =
        .obj [("error".toList, .str e)] := by
      rw [gemini_send_with_json_output, h]
    exact ⟨heq, by rw [heq]; rfl⟩
  · intro h
    rw [claude_send_with_json_output, claude_send_message, h]
    rfl

/-- C10 witness: the Gemini error shape at the failing fixture. -/
theorem c10_witness :
    gemini_send_with_json_output failingGemini "t".toList (.obj []) [] =
      .obj [("error".toList, .str "boom".toList)] ∧
    claude_send_with_json_output failingClaude "m".toList "t".toList (.obj []) [] =
      parse_structured_output ("Error: ".toList ++ "boom".toList) :=
  ⟨((c10_json_error_shapes failingGemini failingClaude "m".toList "t".toList
      (.obj []) [] "boom".toList).1 rfl).1,
    (c10_json_error_shapes failingGemini failingClaude "m".toList "t".toList
      (.obj []) [] "boom".toList).2 rfl⟩
